import Mathlib

/-!
Verification model of the BrainBox Hebbian memory engine
(`BrainBoxDB` in the repository's SQLite layer).

The engine persists `neurons`, `synapses`, `access_log` and `sessions`
tables in SQLite and exposes `record`, `recall`, `decay`, `stats` and
`close`.  This file gives a shallow embedding of that layer:

* SQLite tables become Lean lists of rows; prepared statements become
  functions on the table state.
* JavaScript numbers are modelled as exact rationals.  To keep every
  definition executable by the kernel we use `Q`, a fraction of an `Int`
  numerator over a positive `Nat` denominator, together with a
  valuation `Q.val : Q → ℚ` and homomorphism lemmas, so that order
  and field reasoning happens in `ℚ` while concrete runs reduce by
  `decide`.
* Timestamps (`new Date().toISOString()`, `Date.now()`) are modelled as
  rational milliseconds passed in as an explicit `now` argument.
* `JSON.parse`/`JSON.stringify` of the `contexts` column are modelled by
  `Blob`: `Blob.enc l` is the JSON encoding of the string list `l`, and
  `Blob.raw s` stands for stored text that does not decode (on which
  `JSON.parse` throws).  Statement failures (JSON decode errors,
  foreign-key violations) are surfaced as `Except String`.
-/

namespace NeuroVault

/-! ## Exact rational numbers with kernel-computable operations -/

/-- A rational number as an `Int` numerator over a positive `Nat`
denominator.  Unlike `ℚ` it is not normalised, so all operations reduce
in the kernel (no `Nat.gcd`). -/
structure Q where
  n : Int
  d : Nat
  dpos : 0 < d

/-- Build a `Q` from a numerator and a (positive) denominator literal. -/
def qq (n : Int) (d : Nat) : Q :=
  if h : 0 < d then ⟨n, d, h⟩ else ⟨n, 1, Nat.one_pos⟩

namespace Q

/-- Valuation into `ℚ`, used only in theorem statements and proofs. -/
def val (a : Q) : ℚ := (a.n : ℚ) / (a.d : ℚ)

def add (a b : Q) : Q := ⟨a.n * b.d + b.n * a.d, a.d * b.d, Nat.mul_pos a.dpos b.dpos⟩

def sub (a b : Q) : Q := ⟨a.n * b.d - b.n * a.d, a.d * b.d, Nat.mul_pos a.dpos b.dpos⟩

def mul (a b : Q) : Q := ⟨a.n * b.n, a.d * b.d, Nat.mul_pos a.dpos b.dpos⟩

/-- Division by a natural number.  Every division in the source divides
by a positive length or a positive constant; the `k = 0` branch is never
reached and returns an arbitrary value (JS would give `Infinity`). -/
def divN (a : Q) (k : Nat) : Q :=
  if h : 0 < k then ⟨a.n, a.d * k, Nat.mul_pos a.dpos h⟩ else ⟨0, 1, Nat.one_pos⟩

def ble (a b : Q) : Bool := decide (a.n * (b.d : Int) ≤ b.n * (a.d : Int))

def blt (a b : Q) : Bool := decide (a.n * (b.d : Int) < b.n * (a.d : Int))

def beq (a b : Q) : Bool := decide (a.n * (b.d : Int) = b.n * (a.d : Int))

def qmin (a b : Q) : Q := if a.ble b then a else b

def qmax (a b : Q) : Q := if a.ble b then b else a

def ofNat (k : Nat) : Q := ⟨k, 1, Nat.one_pos⟩

end Q

/-! ## String helpers

The source uses `String.prototype.toLowerCase`, `split(/\s+/)`,
`includes`, SQLite `LIKE '%kw%'` (ASCII case-insensitive) and
`Array.prototype.join(" ")`.  They are modelled structurally over
`List Char` so that concrete runs reduce in the kernel. -/

/-- Models `s.toLowerCase()`. -/
def lowerStr (s : String) : String := ⟨s.data.map Char.toLower⟩

/-- Is `pat` a leading segment of `text`? -/
def chPrefix : List Char → List Char → Bool
  | [], _ => true
  | _ :: _, [] => false
  | a :: as, b :: bs => a == b && chPrefix as bs

/-- Does `text` contain `pat` as a contiguous segment? -/
def hasSub (pat : List Char) : List Char → Bool
  | [] => chPrefix pat []
  | c :: cs => chPrefix pat (c :: cs) || hasSub pat cs

/-- Models `hay.includes(pat)` (case-sensitive substring test). -/
def strHas (hay pat : String) : Bool := hasSub pat.data hay.data

/-- SQLite `hay LIKE '%pat%'`: substring test, ASCII case-insensitive. -/
def likeHas (hay pat : String) : Bool := strHas (lowerStr hay) (lowerStr pat)

/-- Splits at each whitespace character.  `split(/\s+/)` merges runs of
whitespace into one separator while this produces extra empty pieces,
but every consumer filters the pieces by `length > 2`, where the two
agree. -/
def splitWSAux : List Char → List Char → List String
  | [], acc => [⟨acc.reverse⟩]
  | c :: cs, acc =>
    if c.isWhitespace then ⟨acc.reverse⟩ :: splitWSAux cs [] else splitWSAux cs (c :: acc)

def splitWS (s : String) : List String := splitWSAux s.data []

/-- Models `arr.join(" ")`. -/
def joinSpace : List String → String
  | [] => ""
  | [s] => s
  | s :: rest => s ++ " " ++ joinSpace rest

/-! ## The JSON-encoded `contexts` column -/

/-- JSON string escaping (quote and backslash; the claims never involve
control characters). -/
def jsonEscapeChar (c : Char) : List Char :=
  if c = '"' ∨ c = '\\' then ['\\', c] else [c]

def jsonStr (s : String) : String :=
  "\"" ++ (⟨(s.data.map jsonEscapeChar).flatten⟩ : String) ++ "\""

def joinComma : List String → String
  | [] => ""
  | [s] => s
  | s :: rest => s ++ "," ++ joinComma rest

/-- Models `JSON.stringify` of a string array. -/
def jsonEncode (l : List String) : String := "[" ++ joinComma (l.map jsonStr) ++ "]"

/-- The stored text of the `contexts` column.  `Blob.enc l` is the JSON
encoding of `l` as written by `record`; `Blob.raw s` stands for stored
text that does not decode as a JSON string array (on which `JSON.parse`
throws a `SyntaxError`). -/
inductive Blob where
  | enc (l : List String)
  | raw (text : String)

/-- The literal column text, as seen by SQLite `LIKE`. -/
def Blob.text : Blob → String
  | .enc l => jsonEncode l
  | .raw s => s

/-- `JSON.parse` of the column text. -/
def Blob.parse : Blob → Except String (List String)
  | .enc l => .ok l
  | .raw _ => .error "SyntaxError: JSON.parse failed"

/-! ## Data model: table rows and the persisted store -/

structure Neuron where
  id : String
  type : String
  path : String
  activation : Q
  myelination : Q
  access_count : Nat
  last_accessed : Option Q
  created_at : Q
  contexts : Blob

structure Synapse where
  source_id : String
  target_id : String
  weight : Q
  co_access_count : Nat
  last_fired : Option Q
  created_at : Q

structure AccessRow where
  id : Nat
  neuron_id : String
  session_id : String
  query : Option String
  timestamp : Q
  token_cost : Nat
  access_order : Nat

structure Session where
  id : String
  started_at : Q
  ended_at : Option Q
  total_accesses : Nat
  tokens_used : Nat
  tokens_saved : Nat
  hit_rate : Q

/-- The persisted SQLite file: the four tables (plus the autoincrement
counter of `access_log.id`). -/
structure DB where
  neurons : List Neuron
  synapses : List Synapse
  access_log : List AccessRow
  sessions : List Session
  nextLogId : Nat

/-! ## Tuning constants (source lines 15–23) -/

def LEARNING_RATE : Q := qq 1 10

def MYELIN_RATE : Q := qq 2 100

def MYELIN_MAX : Q := qq 95 100

def SYNAPSE_DECAY_RATE : Q := qq 2 100

def ACTIVATION_DECAY_RATE : Q := qq 15 100

def MYELIN_DECAY_RATE : Q := qq 5 1000

def SYNAPSE_PRUNE_THRESHOLD : Q := qq 5 100

def CONFIDENCE_GATE : Q := qq 4 10

def CO_ACCESS_WINDOW_SIZE : Nat := 10

/-! ## Sorting

SQLite `ORDER BY key DESC` and JavaScript's (stable, ES2019)
`sort((a, b) => b.key - a.key)` are both modelled as a stable
descending insertion sort on a rational key. -/

def insertDescBy {α : Type} (key : α → Q) (x : α) : List α → List α
  | [] => [x]
  | y :: ys => if (key y).blt (key x) then x :: y :: ys else y :: insertDescBy key x ys

def sortDescBy {α : Type} (key : α → Q) (l : List α) : List α :=
  l.foldl (fun acc x => insertDescBy key x acc) []

/-! ## Prepared statements (source `prepareStatements`, lines 145–194) -/

/-- Statement `SELECT * FROM neurons WHERE id = ?`. -/
def getNeuron (db : DB) (id : String) : Option Neuron :=
  db.neurons.find? (fun nr => nr.id == id)

/-- The myelination expression of the upsert's conflict branch:
`MIN(neurons.myelination + 0.02 * (1.0 - neurons.myelination), 0.95)`. -/
def myelinUpdate (m : Q) : Q :=
  (m.add (MYELIN_RATE.mul ((qq 1 1).sub m))).qmin MYELIN_MAX

/-- The conflict branch of the neuron upsert applied to one row. -/
def neuronUpdateRow (activation now : Q) (contexts : Blob) (id : String)
    (nr : Neuron) : Neuron :=
  if nr.id == id then
    { nr with activation := activation,
              myelination := myelinUpdate nr.myelination,
              access_count := nr.access_count + 1,
              last_accessed := some now,
              contexts := contexts }
  else nr

/-- The insert branch's fresh neuron row: `VALUES (@id, @type, @path,
@activation, @myelination, 1, @now, @now, @contexts)`. -/
def neuronNewRow (id type_ path : String) (activation myelination now : Q)
    (contexts : Blob) : Neuron :=
  ⟨id, type_, path, activation, myelination, 1, some now, now, contexts⟩

/-- Statement `INSERT INTO neurons ... ON CONFLICT(id) DO UPDATE SET ...`
(source lines 148–157).  The insert branch stores the passed values with
`access_count = 1`; the conflict branch overwrites `activation` and
`contexts`, advances myelination by `myelinUpdate`, and bumps
`access_count`. -/
def upsertNeuron (db : DB) (id type_ path : String) (activation myelination : Q)
    (now : Q) (contexts : Blob) : DB :=
  if db.neurons.any (fun nr => nr.id == id) then
    { db with neurons := db.neurons.map (neuronUpdateRow activation now contexts id) }
  else
    { db with neurons :=
        db.neurons ++ [neuronNewRow id type_ path activation myelination now contexts] }

/-- Statement `SELECT * FROM synapses WHERE source_id = ? ORDER BY weight DESC`. -/
def getSynapses (db : DB) (src : String) : List Synapse :=
  sortDescBy (fun s => s.weight) (db.synapses.filter (fun s => s.source_id == src))

/-- The weight expression of the synapse upsert's conflict branch:
`MIN(synapses.weight + @delta * (1.0 - synapses.weight), 1.0)`. -/
def weightUpdate (w delta : Q) : Q :=
  (w.add (delta.mul ((qq 1 1).sub w))).qmin (qq 1 1)

/-- The `(source_id, target_id)` primary-key test of the synapse
upsert's `WHERE`/conflict clause. -/
def synKeyP (source target : String) (s : Synapse) : Bool :=
  s.source_id == source && s.target_id == target

/-- The conflict branch of the synapse upsert applied to one row. -/
def synUpdateRow (source target : String) (delta now : Q) (s : Synapse) : Synapse :=
  if synKeyP source target s then
    { s with weight := weightUpdate s.weight delta,
             co_access_count := s.co_access_count + 1,
             last_fired := some now }
  else s

/-- The insert branch's fresh row: `VALUES (@source, @target, @weight,
1, @now, @now)`. -/
def synNewRow (source target : String) (weight now : Q) : Synapse :=
  ⟨source, target, weight, 1, some now, now⟩

/-- Statement `INSERT INTO synapses ... ON CONFLICT(source_id, target_id) DO
UPDATE SET ...` (source lines 159–166).  The schema declares both
endpoint columns `REFERENCES neurons(id)` and the store runs with
`foreign_keys = ON`, so an insert whose endpoints are not both extant
neurons fails; the conflict branch updates no key column and passes. -/
def upsertSynapse (db : DB) (source target : String) (weight delta : Q) (now : Q) :
    Except String Unit × DB :=
  if db.synapses.any (synKeyP source target) then
    (.ok (), { db with synapses := db.synapses.map (synUpdateRow source target delta now) })
  else
    if db.neurons.any (fun nr => nr.id == source) && db.neurons.any (fun nr => nr.id == target) then
      (.ok (), { db with synapses := db.synapses ++ [synNewRow source target weight now] })
    else
      (.error "FOREIGN KEY constraint failed", db)

/-- Statement `INSERT INTO access_log ...`.  Its `neuron_id` foreign key always
holds at the one call site, which runs right after upserting that
neuron. -/
def logAccess (db : DB) (neuron_id session_id : String) (query : Option String)
    (now : Q) (token_cost : Nat) (access_order : Nat) : DB :=
  { db with
      access_log := db.access_log ++
        [⟨db.nextLogId, neuron_id, session_id, query, now, token_cost, access_order⟩],
      nextLogId := db.nextLogId + 1 }

/-- Statement `UPDATE sessions SET total_accesses = total_accesses + 1,
tokens_used = tokens_used + @tokens_used WHERE id = @id`. -/
def updateSession (db : DB) (id : String) (tokens_used : Nat) : DB :=
  { db with sessions := db.sessions.map (fun s =>
      if s.id == id then
        { s with total_accesses := s.total_accesses + 1,
                 tokens_used := s.tokens_used + tokens_used }
      else s) }

/-- Statement `SELECT * FROM neurons WHERE contexts LIKE @pattern ORDER BY
myelination DESC LIMIT @limit`, where the caller passes the pattern
`%kw%`. -/
def searchByContext (db : DB) (kw : String) (limit : Nat) : List Neuron :=
  (sortDescBy (fun nr => nr.myelination)
    (db.neurons.filter (fun nr => likeHas nr.contexts.text kw))).take limit

/-- Statement `SELECT * FROM neurons WHERE type = COALESCE(@type, type) ORDER BY
myelination DESC LIMIT @limit`. -/
def topByMyelination (db : DB) (type? : Option String) (limit : Nat) : List Neuron :=
  (sortDescBy (fun nr => nr.myelination)
    (db.neurons.filter (fun nr =>
      match type? with
      | some t => nr.type == t
      | none => true))).take limit

/-- Statement `UPDATE neurons SET activation = activation * 0.85,
myelination = myelination * 0.995` (rates interpolated at prepare time). -/
def decayAll (db : DB) : DB :=
  { db with neurons := db.neurons.map (fun nr =>
      { nr with activation := nr.activation.mul ((qq 1 1).sub ACTIVATION_DECAY_RATE),
                myelination := nr.myelination.mul ((qq 1 1).sub MYELIN_DECAY_RATE) }) }

/-- Statement `UPDATE synapses SET weight = weight * 0.98`. -/
def decaySynapses (db : DB) : DB :=
  { db with synapses := db.synapses.map (fun s =>
      { s with weight := s.weight.mul ((qq 1 1).sub SYNAPSE_DECAY_RATE) }) }

/-- Statement `DELETE FROM synapses WHERE weight < 0.05`, returning `changes`. -/
def pruneSynapses (db : DB) : Nat × DB :=
  ((db.synapses.filter (fun s => s.weight.blt SYNAPSE_PRUNE_THRESHOLD)).length,
   { db with synapses := db.synapses.filter (fun s => !(s.weight.blt SYNAPSE_PRUNE_THRESHOLD)) })

/-- The `pruneNeurons` predicate:
`activation < 0.01 AND myelination < 0.01 AND access_count < 2`. -/
def pruneCond (nr : Neuron) : Bool :=
  nr.activation.blt (qq 1 100) && nr.myelination.blt (qq 1 100) && decide (nr.access_count < 2)

/-- Statement `DELETE FROM neurons WHERE ...`, returning `changes`.  Deleting a
neuron cascade-deletes its synapses and access-log rows
(`ON DELETE CASCADE` with `foreign_keys = ON`); cascaded rows are not
counted in `changes`. -/
def pruneNeurons (db : DB) : Nat × DB :=
  let deadIds := (db.neurons.filter pruneCond).map (fun nr => nr.id)
  ((db.neurons.filter pruneCond).length,
   { db with
       neurons := db.neurons.filter (fun nr => !(pruneCond nr)),
       synapses := db.synapses.filter
         (fun s => !(deadIds.contains s.source_id) && !(deadIds.contains s.target_id)),
       access_log := db.access_log.filter (fun r => !(deadIds.contains r.neuron_id)) })

/-! ## The engine -/

/-- The in-memory state of a `BrainBoxDB` instance: the persisted store,
whether the SQLite handle is open, the co-access window, the session id
and the per-process `accessOrder` counter. -/
structure BrainBoxDB where
  db : DB
  dbOpen : Bool
  recentAccesses : List String
  sessionId : String
  accessOrder : Nat

structure RecallResult where
  neuron : Neuron
  confidence : Q
  activation_path : String

namespace BrainBoxDB

/-- Method `ensureOpen` (source lines 348–355): reconnect lazily if the handle
was closed.  Re-preparing statements has no further model state. -/
def ensureOpen (e : BrainBoxDB) : BrainBoxDB :=
  if e.dbOpen then e else { e with dbOpen := true }

/-- Method `close` (source lines 359–361): closes the handle if open; never
throws. -/
def close (e : BrainBoxDB) : BrainBoxDB := { e with dbOpen := false }

/-- Models `indexOf` followed by `splice(idx, 1)`: drop the first occurrence. -/
def removeFirst (x : String) : List String → List String
  | [] => []
  | a :: as => if a == x then as else a :: removeFirst x as

/-- The Hebbian loop of `record` (source lines 229–236): for the `i`-th
window entry other than `id` itself, both synapse directions are
upserted with `delta = LEARNING_RATE * (i + 1) / len` (also passed as
the insert weight).  A statement failure aborts the loop, keeping the
rows already written. -/
def hebDelta (i len : Nat) : Q := LEARNING_RATE.mul ((Q.ofNat (i + 1)).divN len)

def hebLoop (id : String) (now : Q) (len : Nat) :
    Nat → List String → DB → Except String Unit × DB
  | _, [], db => (.ok (), db)
  | i, recentId :: rest, db =>
    if recentId == id then hebLoop id now len (i + 1) rest db
    else
      match upsertSynapse db id recentId (hebDelta i len) (hebDelta i len) now with
      | (.error msg, db1) => (.error msg, db1)
      | (.ok _, db1) =>
        match upsertSynapse db1 recentId id (hebDelta i len) (hebDelta i len) now with
        | (.error msg, db2) => (.error msg, db2)
        | (.ok _, db2) => hebLoop id now len (i + 1) rest db2

/-- The contexts push of `record` (source lines 207–210): append a
truthy, not-yet-present query and drop the head once the list passes 20
entries. -/
def nextContexts (contexts0 : List String) (query : Option String) : List String :=
  match query with
  | some q =>
    if q != "" && !(contexts0.contains q) then
      let c := contexts0 ++ [q]
      if c.length > 20 then c.tail else c
    else contexts0
  | none => contexts0

/-- Body of `record(path, type, query?)` (source lines 198–245), after
`ensureOpen`.  An exception part-way (`JSON.parse` of a malformed
`contexts` blob, or a failing statement) propagates, keeping the
mutations already made. -/
def recordBody (path type_ : String) (query : Option String) (now : Q)
    (e : BrainBoxDB) : Except String Unit × BrainBoxDB :=
  let id := type_ ++ ":" ++ path
  let existing := getNeuron e.db id
  match (match existing with
         | some nr => nr.contexts.parse
         | none => Except.ok []) with
  | .error msg => (.error msg, e)
  | .ok contexts0 =>
    let contexts := nextContexts contexts0 query
    let myel := match existing with
      | some nr => nr.myelination
      | none => qq 0 1
    let db1 := upsertNeuron e.db id type_ path (qq 1 1) myel now (Blob.enc contexts)
    let ao := e.accessOrder + 1
    let tokenCost : Nat := if type_ == "file" then 1500 else 500
    let storedQuery := match query with
      | some q => if q == "" then none else some q
      | none => none
    let db2 := logAccess db1 id e.sessionId storedQuery now tokenCost ao
    match hebLoop id now e.recentAccesses.length 0 e.recentAccesses db2 with
    | (.error msg, db3) => (.error msg, { e with db := db3, accessOrder := ao })
    | (.ok _, db3) =>
      let ra1 := removeFirst id e.recentAccesses ++ [id]
      let ra2 := if ra1.length > CO_ACCESS_WINDOW_SIZE then ra1.tail else ra1
      let db4 := updateSession db3 e.sessionId tokenCost
      (.ok (), { e with db := db4, accessOrder := ao, recentAccesses := ra2 })

/-- Method `record(path, type, query?)`. -/
def record (path type_ : String) (query : Option String) (now : Q)
    (e : BrainBoxDB) : Except String Unit × BrainBoxDB :=
  recordBody path type_ query now (ensureOpen e)

/-- Keyword extraction of `recall`/`computeConfidence`:
`query.toLowerCase().split(/\s+/).filter(w => w.length > 2)`. -/
def keywordsOf (query : String) : List String :=
  (splitWS (lowerStr query)).filter (fun w => w.length > 2)

/-- Method `computeConfidence` (source lines 310–326). -/
def computeConfidence (nr : Neuron) (query : String) (now : Q) : Except String Q :=
  match nr.contexts.parse with
  | .error msg => .error msg
  | .ok contexts =>
    let keywords := keywordsOf query
    let contextStr := lowerStr (joinSpace contexts)
    let matchCount := (keywords.filter (fun k => strHas contextStr k)).length
    let s1 := (if keywords.length > 0
               then (Q.ofNat matchCount).divN keywords.length
               else qq 0 1).mul (qq 4 10)
    let s2 := nr.myelination.mul (qq 3 10)
    let s3 := match nr.last_accessed with
      | some t =>
        let ageMs := now.sub t
        ((qq 0 1).qmax ((qq 1 1).sub (ageMs.divN (168 * 3600000)))).mul (qq 2 10)
      | none => qq 0 1
    let pathLower := lowerStr nr.path
    let pathMatches := (keywords.filter (fun k => strHas pathLower k)).length
    let s4 := (if keywords.length > 0
               then (Q.ofNat pathMatches).divN keywords.length
               else qq 0 1).mul (qq 1 10)
    .ok ((((s1.add s2).add s3).add s4).qmin (qq 1 1))

/-- Method `parseNeuron` (source lines 363–365): decode the contexts blob. -/
def parseNeuron (nr : Neuron) : Except String Neuron :=
  match nr.contexts.parse with
  | .error msg => .error msg
  | .ok l => .ok { nr with contexts := Blob.enc l }

/-- Phase 1 candidate collection (source lines 262–269): per keyword,
up to 10 `LIKE` matches, deduplicated by id in first-seen order. -/
def directMatchesOf (db : DB) (keywords : List String) : List Neuron :=
  keywords.foldl (fun dm kw =>
    (searchByContext db kw 10).foldl (fun dm2 m =>
      if dm2.any (fun dd => dd.id == m.id) then dm2 else dm2 ++ [m]) dm) []

/-- Phase 1 emission (source lines 271–277): type filter, confidence
gate at `CONFIDENCE_GATE`, emit as `"direct"`.  The accumulator pairs
the `activated` id set with the results list. -/
def phase1 (_db : DB) (type_ query : String) (now : Q) (dm : List Neuron) :
    Except String (List String × List RecallResult) :=
  dm.foldlM (fun acc nr =>
    if type_ != "" && nr.type != type_ then pure acc
    else
      match computeConfidence nr query now with
      | .error msg => .error msg
      | .ok confidence =>
        if confidence.blt CONFIDENCE_GATE then pure acc
        else
          match parseNeuron nr with
          | .error msg => .error msg
          | .ok pn => pure (acc.1 ++ [nr.id], acc.2 ++ [⟨pn, confidence, "direct"⟩]))
    (([], []) : List String × List RecallResult)

/-- One Phase 2 step (the body of the inner loop, source lines 283–291):
skip synapses under weight `0.3`, already-activated or type-mismatched
targets; gate `spreadConf` at `CONFIDENCE_GATE`; emit as `"spread"` with
confidence clamped to `0.99`. -/
def spreadStep (db : DB) (type_ : String) (seedConf : Q)
    (acc : List String × List RecallResult) (syn : Synapse) :
    Except String (List String × List RecallResult) :=
  if syn.weight.blt (qq 3 10) || acc.1.contains syn.target_id then pure acc
  else
    match getNeuron db syn.target_id with
    | none => pure acc
    | some target =>
      if type_ != "" && target.type != type_ then pure acc
      else
        let spreadConf := (seedConf.mul syn.weight).mul ((qq 1 1).add target.myelination)
        if spreadConf.blt CONFIDENCE_GATE then pure acc
        else
          match parseNeuron target with
          | .error msg => .error msg
          | .ok pt => pure (acc.1 ++ [syn.target_id], acc.2 ++ [⟨pt, spreadConf.qmin (qq 99 100), "spread"⟩])

/-- Phase 2 (source lines 280–292): for each frontier seed, process the
first 10 outgoing synapses in descending weight order. -/
def phase2 (db : DB) (type_ : String) (frontier : List RecallResult)
    (acc : List String × List RecallResult) :
    Except String (List String × List RecallResult) :=
  frontier.foldlM (fun acc2 seed =>
    ((getSynapses db seed.neuron.id).take 10).foldlM (spreadStep db type_ seed.confidence) acc2) acc

/-- Phase 3, the myelinated fallback (source lines 295–304), with its
local gate `MYELIN_GATE = 0.15` and confidence `myelination * 0.5`. -/
def phase3 (db : DB) (type_ : String) (limit : Int)
    (acc : List String × List RecallResult) : Except String (List RecallResult) :=
  if (acc.2.length : Int) < limit then
    let top := topByMyelination db (if type_ == "" then none else some type_)
      (limit - (acc.2.length : Int)).toNat
    ((top.foldlM (fun (st : List String × List RecallResult) (nr : Neuron) =>
      if st.1.contains nr.id then pure st
      else
        let conf := nr.myelination.mul (qq 5 10)
        if conf.blt (qq 15 100) then pure st
        else
          match parseNeuron nr with
          | .error msg => .error msg
          | .ok pn => pure (st.1, st.2 ++ [⟨pn, conf, "myelinated"⟩]))
      acc : Except String (List String × List RecallResult))).map (fun st => st.2)
  else pure acc.2

/-- Models `Array.prototype.slice(0, stop)`, including the negative-`stop`
behaviour (count from the end). -/
def jsSliceEnd {α : Type} (l : List α) (stop : Int) : List α :=
  if stop < 0 then l.take ((l.length : Int) + stop).toNat else l.take stop.toNat

/-- Method `recall(query, type, limit)` on an open store (source lines
256–308): three phases, then sort by confidence descending and
`slice(0, limit)`. -/
def recallCore (db : DB) (query type_ : String) (limit : Int) (now : Q) :
    Except String (List RecallResult) :=
  match phase1 db type_ query now (directMatchesOf db (keywordsOf query)) with
  | .error msg => .error msg
  | .ok acc1 =>
    match phase2 db type_ acc1.2 acc1 with
    | .error msg => .error msg
    | .ok acc2 =>
      match phase3 db type_ limit acc2 with
      | .error msg => .error msg
      | .ok res => .ok (jsSliceEnd (sortDescBy (fun r => r.confidence) res) limit)

/-- Method `recall(query, type, limit)`.  It runs only `SELECT` statements, so
the store is returned as `ensureOpen` left it. -/
def recallOp (query type_ : String) (limit : Int) (now : Q) (e : BrainBoxDB) :
    Except String (List RecallResult) × BrainBoxDB :=
  let e1 := ensureOpen e
  (recallCore e1.db query type_ limit now, e1)

/-- Method `decay()` (source lines 330–337): decay neurons and synapses, prune
weak synapses, prune dead neurons; returns
`(pruned_synapses, pruned_neurons)` from the two deletes' `changes`. -/
def decay (e : BrainBoxDB) : (Nat × Nat) × BrainBoxDB :=
  let e1 := ensureOpen e
  let db2 := decaySynapses (decayAll e1.db)
  let ps := pruneSynapses db2
  let pn := pruneNeurons ps.2
  ((ps.1, pn.1), { e1 with db := pn.2 })

end BrainBoxDB

/-- A store with no rows at all. -/
def emptyDB : DB := ⟨[], [], [], [], 1⟩

/-- The constructor (source lines 63–90) run against a fresh (empty)
database file: migrations create empty tables, a session row is
inserted, and the co-access window seeded from the empty access log is
empty. -/
def openFresh (sessionId : String) (now : Q) : BrainBoxDB :=
  { db := { emptyDB with sessions := [⟨sessionId, now, none, 0, 0, 0, qq 0 1⟩] },
    dbOpen := true,
    recentAccesses := [],
    sessionId := sessionId,
    accessOrder := 0 }

/-- One public mutating operation, for invariant statements over
arbitrary operation sequences. -/
inductive Op where
  | record (path type_ : String) (query : Option String) (now : Q)
  | decay

/-- Run one operation, keeping whatever state a failing `record` left
behind (the exception propagates past the engine). -/
def applyOp (op : Op) (e : BrainBoxDB) : BrainBoxDB :=
  match op with
  | .record p t q now => (BrainBoxDB.record p t q now e).2
  | .decay => (BrainBoxDB.decay e).2

def applyOps (ops : List Op) (e : BrainBoxDB) : BrainBoxDB :=
  ops.foldl (fun ee op => applyOp op ee) e

/-- Operation `decay()` invoked `k` times in a row. -/
def iterDecay : Nat → BrainBoxDB → BrainBoxDB
  | 0, e => e
  | k + 1, e => iterDecay k (BrainBoxDB.decay e).2

/-- Range invariant of one neuron row:
`0 ≤ activation ≤ 1` and `0 ≤ myelination ≤ 0.95`. -/
def NeuronOK (nr : Neuron) : Prop :=
  0 ≤ nr.activation.val ∧ nr.activation.val ≤ 1 ∧
  0 ≤ nr.myelination.val ∧ nr.myelination.val ≤ MYELIN_MAX.val

/-- Range invariant of one synapse row: `0 ≤ weight ≤ 1`. -/
def SynapseOK (s : Synapse) : Prop := 0 ≤ s.weight.val ∧ s.weight.val ≤ 1

/-- All rows of the store satisfy their range invariants. -/
def RangesOK (db : DB) : Prop :=
  (∀ nr ∈ db.neurons, NeuronOK nr) ∧ (∀ s ∈ db.synapses, SynapseOK s)

/-- The synapse row stored under key `(a, b)`, if any. -/
def synGet (db : DB) (a b : String) : Option Synapse :=
  db.synapses.find? (synKeyP a b)

/-- The synapse table is symmetric: a row `(a, b)` is present iff
`(b, a)` is, and then their weights are equal. -/
def SymW (db : DB) : Prop :=
  ∀ a b : String,
    (synGet db a b).map (fun s => s.weight.val) =
    (synGet db b a).map (fun s => s.weight.val)

/-- A sequence of `record(path, type, query, now)` calls, applied in
order. -/
def applyRecordCalls (calls : List (String × String × Option String × Q))
    (e : BrainBoxDB) : BrainBoxDB :=
  calls.foldl (fun ee c => (BrainBoxDB.record c.1 c.2.1 c.2.2.1 c.2.2.2 ee).2) e

/-! ## Concrete scenarios used by the claims -/

/-- Scenario `record("/x", file, "grep foo")` then `record("/y", file, "grep
foo")` on a fresh engine (scenario of claim C4). -/
def pairEngine : BrainBoxDB :=
  (BrainBoxDB.record "/y" "file" (some "grep foo") (qq 0 1)
    (BrainBoxDB.record "/x" "file" (some "grep foo") (qq 0 1)
      (openFresh "s" (qq 0 1))).2).2

/-- Scenario `record("/x", file, "grep foo")` twice on a fresh engine (scenario
of claim C2). -/
def twiceEngine : BrainBoxDB :=
  (BrainBoxDB.record "/x" "file" (some "grep foo") (qq 1 1)
    (BrainBoxDB.record "/x" "file" (some "grep foo") (qq 0 1)
      (openFresh "s" (qq 0 1))).2).2

/-- Two single records on a fresh engine, ready for repeated `decay()`
(scenario of claim C3). -/
def decayPairEngine : BrainBoxDB :=
  (BrainBoxDB.record "/x2" "file" none (qq 0 1)
    (BrainBoxDB.record "/x1" "file" none (qq 0 1)
      (openFresh "s" (qq 0 1))).2).2

/-- A seed neuron whose contexts match the query `"foo"` (claim C6). -/
def spreadSeed : Neuron :=
  ⟨"file:/s", "file", "/s", qq 0 1, qq 0 1, 1, some (qq 0 1), qq 0 1, .enc ["foo"]⟩

/-- A spread target with empty contexts and zero myelination
(claim C6). -/
def spreadTarget (id path : String) : Neuron :=
  ⟨id, "file", path, qq 0 1, qq 0 1, 1, none, qq 0 1, .enc []⟩

/-- A synapse out of the seed with weight `w/100` (claim C6). -/
def spreadSyn (target : String) (w : Int) : Synapse :=
  ⟨"file:/s", target, qq w 100, 1, none, qq 0 1⟩

/-- A store in which the Phase-1 seed has eleven outgoing synapses, all
of weight `≥ 0.3` and all with spread confidence `≥ 0.4`; their distinct
weights rank the `0.8` synapse to `/t11` eleventh (claim C6). -/
def spreadEngine : BrainBoxDB :=
  ⟨⟨[spreadSeed, spreadTarget "file:/t1" "/t1", spreadTarget "file:/t2" "/t2",
     spreadTarget "file:/t3" "/t3", spreadTarget "file:/t4" "/t4",
     spreadTarget "file:/t5" "/t5", spreadTarget "file:/t6" "/t6",
     spreadTarget "file:/t7" "/t7", spreadTarget "file:/t8" "/t8",
     spreadTarget "file:/t9" "/t9", spreadTarget "file:/t10" "/t10",
     spreadTarget "file:/t11" "/t11"],
    [spreadSyn "file:/t1" 90, spreadSyn "file:/t2" 89, spreadSyn "file:/t3" 88,
     spreadSyn "file:/t4" 87, spreadSyn "file:/t5" 86, spreadSyn "file:/t6" 85,
     spreadSyn "file:/t7" 84, spreadSyn "file:/t8" 83, spreadSyn "file:/t9" 82,
     spreadSyn "file:/t10" 81, spreadSyn "file:/t11" 80],
    [], [], 1⟩, true, [], "s", 0⟩

/-- A persisted neuron whose `contexts` text does not decode as JSON,
and contains the keyword `foo` (claim C7). -/
def badBlobNeuron : Neuron :=
  ⟨"file:/a", "file", "/a", qq 1 1, qq 0 1, 1, some (qq 0 1), qq 0 1,
   .raw "not valid json foo"⟩

def badBlobEngine : BrainBoxDB :=
  ⟨⟨[badBlobNeuron], [], [], [], 1⟩, true, [], "s", 0⟩

/-- A one-neuron store holding the spec's Phase-2 gate example: target
`C` with zero myelination behind a weight-`0.4` synapse (claim C6's
witness). -/
def gateTarget : Neuron :=
  ⟨"file:/c", "file", "/c", qq 0 1, qq 0 1, 1, none, qq 0 1, .enc []⟩

def gateSyn : Synapse := ⟨"file:/a", "file:/c", qq 4 10, 1, none, qq 0 1⟩

def gateDb : DB := ⟨[gateTarget], [gateSyn], [], [], 1⟩

/-! ## Values of the tuning constants -/

namespace Q

theorem dQ_pos (a : Q) : (0 : ℚ) < (a.d : ℚ) := by exact_mod_cast a.dpos

theorem dQ_ne (a : Q) : (a.d : ℚ) ≠ 0 := ne_of_gt a.dQ_pos

theorem val_mk (n : Int) (d : Nat) (h : 0 < d) :
    (Q.mk n d h).val = (n : ℚ) / (d : ℚ) := by
  unfold val
  norm_num

theorem val_qq (n : Int) (d : Nat) (h : 0 < d) :
    (qq n d).val = (n : ℚ) / (d : ℚ) := by
  unfold qq
  rw [dif_pos h]
  exact val_mk n d h

theorem val_add (a b : Q) : (a.add b).val = a.val + b.val := by
  have ha := a.dQ_ne
  have hb := b.dQ_ne
  unfold val add
  push_cast
  field_simp

theorem val_sub (a b : Q) : (a.sub b).val = a.val - b.val := by
  have ha := a.dQ_ne
  have hb := b.dQ_ne
  unfold val sub
  push_cast
  field_simp
  ring

theorem val_mul (a b : Q) : (a.mul b).val = a.val * b.val := by
  have ha := a.dQ_ne
  have hb := b.dQ_ne
  unfold val mul
  push_cast
  field_simp

theorem val_divN (a : Q) (k : Nat) (h : 0 < k) :
    (a.divN k).val = a.val / (k : ℚ) := by
  unfold val divN
  rw [dif_pos h]
  push_cast
  rw [div_div]

theorem val_ofNat (k : Nat) : (Q.ofNat k).val = (k : ℚ) := by
  unfold val ofNat
  simp

theorem ble_iff (a b : Q) : a.ble b = true ↔ a.val ≤ b.val := by
  unfold ble val
  rw [decide_eq_true_iff]
  rw [div_le_div_iff₀ a.dQ_pos b.dQ_pos]
  constructor
  · intro h; exact_mod_cast h
  · intro h; exact_mod_cast h

theorem blt_iff (a b : Q) : a.blt b = true ↔ a.val < b.val := by
  unfold blt val
  rw [decide_eq_true_iff]
  rw [div_lt_div_iff₀ a.dQ_pos b.dQ_pos]
  constructor
  · intro h; exact_mod_cast h
  · intro h; exact_mod_cast h

theorem beq_iff (a b : Q) : a.beq b = true ↔ a.val = b.val := by
  unfold beq val
  rw [decide_eq_true_iff]
  rw [div_eq_div_iff a.dQ_ne b.dQ_ne]
  constructor
  · intro h; exact_mod_cast h
  · intro h; exact_mod_cast h

theorem val_qmin (a b : Q) : (a.qmin b).val = min a.val b.val := by
  unfold qmin
  by_cases h : a.ble b = true
  · rw [if_pos h, min_eq_left ((ble_iff a b).mp h)]
  · have hlt : b.val ≤ a.val := by
      have := (ble_iff a b).not.mp h
      linarith [not_le.mp this]
    rw [if_neg h, min_eq_right hlt]

theorem val_qmax (a b : Q) : (a.qmax b).val = max a.val b.val := by
  unfold qmax
  by_cases h : a.ble b = true
  · rw [if_pos h, max_eq_right ((ble_iff a b).mp h)]
  · have hlt : b.val ≤ a.val := by
      have := (ble_iff a b).not.mp h
      linarith [not_le.mp this]
    rw [if_neg h, max_eq_left hlt]

theorem ble_false_iff (a b : Q) : a.ble b = false ↔ b.val < a.val := by
  constructor
  · intro h
    by_contra hc
    have := (ble_iff a b).mpr (not_lt.mp hc)
    rw [h] at this
    exact Bool.noConfusion this
  · intro h
    cases hb : a.ble b
    · rfl
    · exact absurd ((ble_iff a b).mp hb) (not_le.mpr h)

theorem blt_false_iff (a b : Q) : a.blt b = false ↔ b.val ≤ a.val := by
  constructor
  · intro h
    by_contra hc
    have := (blt_iff a b).mpr (not_le.mp hc)
    rw [h] at this
    exact Bool.noConfusion this
  · intro h
    cases hb : a.blt b
    · rfl
    · exact absurd ((blt_iff a b).mp hb) (not_lt.mpr h)

end Q



theorem val_zeroQ : (qq 0 1).val = 0 := by
  rw [Q.val_qq 0 1 (by norm_num)]; norm_num

theorem val_oneQ : (qq 1 1).val = 1 := by
  rw [Q.val_qq 1 1 (by norm_num)]; norm_num

theorem LEARNING_RATE_val : LEARNING_RATE.val = 0.1 := by
  unfold LEARNING_RATE; rw [Q.val_qq 1 10 (by norm_num)]; norm_num

theorem MYELIN_RATE_val : MYELIN_RATE.val = 0.02 := by
  unfold MYELIN_RATE; rw [Q.val_qq 2 100 (by norm_num)]; norm_num

theorem MYELIN_MAX_val : MYELIN_MAX.val = 0.95 := by
  unfold MYELIN_MAX; rw [Q.val_qq 95 100 (by norm_num)]; norm_num

theorem SYNAPSE_DECAY_RATE_val : SYNAPSE_DECAY_RATE.val = 0.02 := by
  unfold SYNAPSE_DECAY_RATE; rw [Q.val_qq 2 100 (by norm_num)]; norm_num

theorem ACTIVATION_DECAY_RATE_val : ACTIVATION_DECAY_RATE.val = 0.15 := by
  unfold ACTIVATION_DECAY_RATE; rw [Q.val_qq 15 100 (by norm_num)]; norm_num

theorem MYELIN_DECAY_RATE_val : MYELIN_DECAY_RATE.val = 0.005 := by
  unfold MYELIN_DECAY_RATE; rw [Q.val_qq 5 1000 (by norm_num)]; norm_num

theorem SYNAPSE_PRUNE_THRESHOLD_val : SYNAPSE_PRUNE_THRESHOLD.val = 0.05 := by
  unfold SYNAPSE_PRUNE_THRESHOLD; rw [Q.val_qq 5 100 (by norm_num)]; norm_num

theorem CONFIDENCE_GATE_val : CONFIDENCE_GATE.val = 0.4 := by
  unfold CONFIDENCE_GATE; rw [Q.val_qq 4 10 (by norm_num)]; norm_num

/-! ## The numeric-range invariant (claim C1) -/

theorem myelinUpdate_val (m : Q) :
    (myelinUpdate m).val = min (m.val + 0.02 * (1 - m.val)) 0.95 := by
  unfold myelinUpdate
  rw [Q.val_qmin, Q.val_add, Q.val_mul, Q.val_sub, val_oneQ, MYELIN_RATE_val, MYELIN_MAX_val]

theorem weightUpdate_val (w delta : Q) :
    (weightUpdate w delta).val = min (w.val + delta.val * (1 - w.val)) 1 := by
  unfold weightUpdate
  rw [Q.val_qmin, Q.val_add, Q.val_mul, Q.val_sub, val_oneQ]

theorem myelinUpdate_mem (m : Q) (h0 : 0 ≤ m.val) (_hm1 : m.val ≤ MYELIN_MAX.val) :
    0 ≤ (myelinUpdate m).val ∧ (myelinUpdate m).val ≤ MYELIN_MAX.val := by
  rw [myelinUpdate_val, MYELIN_MAX_val] at *
  constructor
  · apply le_min
    · nlinarith
    · norm_num
  · exact min_le_right _ _

theorem weightUpdate_mem (w delta : Q) (hw0 : 0 ≤ w.val) (hw1 : w.val ≤ 1)
    (hd : 0 ≤ delta.val) :
    0 ≤ (weightUpdate w delta).val ∧ (weightUpdate w delta).val ≤ 1 := by
  rw [weightUpdate_val]
  constructor
  · apply le_min
    · nlinarith
    · norm_num
  · exact min_le_right _ _

/-- Generic preservation of a predicate along `List.foldl`. -/
theorem foldl_preserve {α β : Type} (P : β → Prop) (f : β → α → β) (l : List α)
    (hf : ∀ b a, a ∈ l → P b → P (f b a)) (b : β) (hb : P b) : P (l.foldl f b) := by
  induction l generalizing b with
  | nil => exact hb
  | cons x xs ih =>
    exact ih (fun bb aa haa hbb => hf bb aa (List.mem_cons_of_mem _ haa) hbb)
      (f b x) (hf b x (List.mem_cons_self _ _) hb)

theorem upsertNeuron_ranges (db : DB) (id type_ path : String) (act my now : Q)
    (ctx : Blob) (h : RangesOK db) (ha0 : 0 ≤ act.val) (ha1 : act.val ≤ 1)
    (hm0 : 0 ≤ my.val) (hm1 : my.val ≤ MYELIN_MAX.val) :
    RangesOK (upsertNeuron db id type_ path act my now ctx) := by
  obtain ⟨hn, hs⟩ := h
  unfold upsertNeuron
  split
  · refine ⟨?_, hs⟩
    intro nr hmem
    rw [List.mem_map] at hmem
    obtain ⟨nr0, hmem0, heq⟩ := hmem
    subst heq
    have h0 := hn nr0 hmem0
    obtain ⟨p1, p2, p3, p4⟩ := h0
    unfold neuronUpdateRow
    by_cases hid : (nr0.id == id) = true
    · rw [if_pos hid]
      exact ⟨ha0, ha1, (myelinUpdate_mem nr0.myelination p3 p4).1,
        (myelinUpdate_mem nr0.myelination p3 p4).2⟩
    · rw [if_neg hid]
      exact ⟨p1, p2, p3, p4⟩
  · refine ⟨?_, hs⟩
    intro nr hmem
    rw [List.mem_append] at hmem
    cases hmem with
    | inl hold => exact hn nr hold
    | inr hnew =>
      rw [List.mem_singleton] at hnew
      subst hnew
      exact ⟨ha0, ha1, hm0, hm1⟩

theorem upsertSynapse_ranges (db : DB) (source target : String) (wt delta now : Q)
    (h : RangesOK db) (hw0 : 0 ≤ wt.val) (hw1 : wt.val ≤ 1) (hd : 0 ≤ delta.val) :
    RangesOK (upsertSynapse db source target wt delta now).2 := by
  obtain ⟨hn, hs⟩ := h
  unfold upsertSynapse
  split
  · refine ⟨hn, ?_⟩
    intro s hmem
    rw [List.mem_map] at hmem
    obtain ⟨s0, hmem0, heq⟩ := hmem
    subst heq
    have h0 := hs s0 hmem0
    unfold synUpdateRow
    by_cases hk : synKeyP source target s0 = true
    · rw [if_pos hk]
      exact weightUpdate_mem s0.weight delta h0.1 h0.2 hd
    · rw [if_neg hk]
      exact h0
  · split
    · refine ⟨hn, ?_⟩
      intro s hmem
      rw [List.mem_append] at hmem
      cases hmem with
      | inl hold => exact hs s hold
      | inr hnew =>
        rw [List.mem_singleton] at hnew
        subst hnew
        exact ⟨hw0, hw1⟩
    · exact ⟨hn, hs⟩

theorem hebDelta_mem (i len : Nat) (hlen : i + 1 ≤ len) :
    0 ≤ (BrainBoxDB.hebDelta i len).val ∧ (BrainBoxDB.hebDelta i len).val ≤ 1 := by
  have hpos : 0 < len := lt_of_lt_of_le (Nat.succ_pos i) hlen
  unfold BrainBoxDB.hebDelta
  rw [Q.val_mul, LEARNING_RATE_val, Q.val_divN _ _ hpos, Q.val_ofNat]
  have hlenQ : ((i : ℚ) + 1) ≤ (len : ℚ) := by exact_mod_cast hlen
  have hposQ : (0 : ℚ) < (len : ℚ) := by exact_mod_cast hpos
  have hfrac1 : ((i + 1 : Nat) : ℚ) / (len : ℚ) ≤ 1 := by
    rw [div_le_one hposQ]
    push_cast
    linarith
  have hfrac0 : (0 : ℚ) ≤ ((i + 1 : Nat) : ℚ) / (len : ℚ) := by
    apply div_nonneg
    · positivity
    · exact le_of_lt hposQ
  constructor
  · nlinarith
  · nlinarith

theorem hebLoop_ranges (id : String) (now : Q) (len : Nat) (l : List String)
    (i : Nat) (db : DB) (hlen : i + l.length ≤ len) (h : RangesOK db) :
    RangesOK (BrainBoxDB.hebLoop id now len i l db).2 := by
  induction l generalizing i db with
  | nil => exact h
  | cons r rest ih =>
    have hrest : (i + 1) + rest.length ≤ len := by
      simp only [List.length_cons] at hlen
      omega
    have hi1 : i + 1 ≤ len := by
      simp only [List.length_cons] at hlen
      omega
    have hdelta := hebDelta_mem i len hi1
    unfold BrainBoxDB.hebLoop
    by_cases hr : (r == id) = true
    · rw [if_pos hr]
      exact ih i.succ db hrest h
    · rw [if_neg hr]
      split
      · next msg db1 heq =>
        have h1 := upsertSynapse_ranges db id r (BrainBoxDB.hebDelta i len)
          (BrainBoxDB.hebDelta i len) now h hdelta.1 hdelta.2 hdelta.1
        rw [heq] at h1
        exact h1
      · next u db1 heq =>
        have h1 := upsertSynapse_ranges db id r (BrainBoxDB.hebDelta i len)
          (BrainBoxDB.hebDelta i len) now h hdelta.1 hdelta.2 hdelta.1
        rw [heq] at h1
        split
        · next msg db2 heq2 =>
          have h2 := upsertSynapse_ranges db1 r id (BrainBoxDB.hebDelta i len)
            (BrainBoxDB.hebDelta i len) now h1 hdelta.1 hdelta.2 hdelta.1
          rw [heq2] at h2
          exact h2
        · next u2 db2 heq2 =>
          have h2 := upsertSynapse_ranges db1 r id (BrainBoxDB.hebDelta i len)
            (BrainBoxDB.hebDelta i len) now h1 hdelta.1 hdelta.2 hdelta.1
          rw [heq2] at h2
          exact ih (i + 1) db2 hrest h2

theorem logAccess_ranges (db : DB) (nid sid : String) (query : Option String)
    (now : Q) (tc ao : Nat) (h : RangesOK db) :
    RangesOK (logAccess db nid sid query now tc ao) := h

theorem updateSession_ranges (db : DB) (id : String) (tk : Nat) (h : RangesOK db) :
    RangesOK (updateSession db id tk) := h

theorem getNeuron_mem (db : DB) (id : String) (nr : Neuron)
    (h : getNeuron db id = some nr) : nr ∈ db.neurons :=
  List.mem_of_find?_eq_some h

theorem recordBody_ranges (p t : String) (q : Option String) (now : Q)
    (e : BrainBoxDB) (h : RangesOK e.db) :
    RangesOK (BrainBoxDB.recordBody p t q now e).2.db := by
  unfold BrainBoxDB.recordBody
  cases hex : getNeuron e.db (t ++ ":" ++ p) with
  | none =>
    simp only [hex]
    split
    · next msg db3 heq =>
      have h2 := congrArg Prod.snd heq
      simp only at h2
      rw [← h2]
      apply hebLoop_ranges
      · omega
      · apply logAccess_ranges
        apply upsertNeuron_ranges _ _ _ _ _ _ _ _ h
        · rw [val_oneQ]; norm_num
        · rw [val_oneQ]
        · rw [val_zeroQ]
        · rw [val_zeroQ, MYELIN_MAX_val]; norm_num
    · next u db3 heq =>
      have h2 := congrArg Prod.snd heq
      simp only at h2
      apply updateSession_ranges
      rw [← h2]
      apply hebLoop_ranges
      · omega
      · apply logAccess_ranges
        apply upsertNeuron_ranges _ _ _ _ _ _ _ _ h
        · rw [val_oneQ]; norm_num
        · rw [val_oneQ]
        · rw [val_zeroQ]
        · rw [val_zeroQ, MYELIN_MAX_val]; norm_num
  | some nr =>
    simp only [hex]
    have hmem := getNeuron_mem e.db (t ++ ":" ++ p) nr hex
    have hok := h.1 nr hmem
    cases hp : nr.contexts.parse with
    | error msg => simp only [hp]; exact h
    | ok ctx =>
      simp only [hp]
      split
      · next msg db3 heq =>
        have h2 := congrArg Prod.snd heq
        simp only at h2
        rw [← h2]
        apply hebLoop_ranges
        · omega
        · apply logAccess_ranges
          apply upsertNeuron_ranges _ _ _ _ _ _ _ _ h
          · rw [val_oneQ]; norm_num
          · rw [val_oneQ]
          · exact hok.2.2.1
          · exact hok.2.2.2
      · next u db3 heq =>
        have h2 := congrArg Prod.snd heq
        simp only at h2
        apply updateSession_ranges
        rw [← h2]
        apply hebLoop_ranges
        · omega
        · apply logAccess_ranges
          apply upsertNeuron_ranges _ _ _ _ _ _ _ _ h
          · rw [val_oneQ]; norm_num
          · rw [val_oneQ]
          · exact hok.2.2.1
          · exact hok.2.2.2

theorem decayAll_ranges (db : DB) (h : RangesOK db) : RangesOK (decayAll db) := by
  obtain ⟨hn, hs⟩ := h
  refine ⟨?_, hs⟩
  intro nr hmem
  rw [decayAll] at hmem
  simp only [List.mem_map] at hmem
  obtain ⟨nr0, hmem0, heq⟩ := hmem
  subst heq
  obtain ⟨p1, p2, p3, p4⟩ := hn nr0 hmem0
  constructor
  · simp only [Q.val_mul, Q.val_sub, val_oneQ, ACTIVATION_DECAY_RATE_val]
    nlinarith
  constructor
  · simp only [Q.val_mul, Q.val_sub, val_oneQ, ACTIVATION_DECAY_RATE_val]
    nlinarith
  constructor
  · simp only [Q.val_mul, Q.val_sub, val_oneQ, MYELIN_DECAY_RATE_val]
    nlinarith
  · simp only [Q.val_mul, Q.val_sub, val_oneQ, MYELIN_DECAY_RATE_val, MYELIN_MAX_val]
    rw [MYELIN_MAX_val] at p4
    nlinarith

theorem decaySynapses_ranges (db : DB) (h : RangesOK db) : RangesOK (decaySynapses db) := by
  obtain ⟨hn, hs⟩ := h
  refine ⟨hn, ?_⟩
  intro sy hmem
  rw [decaySynapses] at hmem
  simp only [List.mem_map] at hmem
  obtain ⟨s0, hmem0, heq⟩ := hmem
  subst heq
  obtain ⟨p1, p2⟩ := hs s0 hmem0
  constructor
  · simp only [Q.val_mul, Q.val_sub, val_oneQ, SYNAPSE_DECAY_RATE_val]
    nlinarith
  · simp only [Q.val_mul, Q.val_sub, val_oneQ, SYNAPSE_DECAY_RATE_val]
    nlinarith

theorem pruneSynapses_ranges (db : DB) (h : RangesOK db) : RangesOK (pruneSynapses db).2 := by
  obtain ⟨hn, hs⟩ := h
  refine ⟨hn, ?_⟩
  intro sy hmem
  rw [pruneSynapses] at hmem
  simp only [List.mem_filter] at hmem
  exact hs sy hmem.1

theorem pruneNeurons_ranges (db : DB) (h : RangesOK db) : RangesOK (pruneNeurons db).2 := by
  obtain ⟨hn, hs⟩ := h
  constructor
  · intro nr hmem
    rw [pruneNeurons] at hmem
    simp only [List.mem_filter] at hmem
    exact hn nr hmem.1
  · intro sy hmem
    rw [pruneNeurons] at hmem
    simp only [List.mem_filter] at hmem
    exact hs sy hmem.1

theorem ensureOpen_db (e : BrainBoxDB) : (BrainBoxDB.ensureOpen e).db = e.db := by
  unfold BrainBoxDB.ensureOpen
  split <;> rfl

theorem record_ranges (p t : String) (q : Option String) (now : Q)
    (e : BrainBoxDB) (h : RangesOK e.db) :
    RangesOK (BrainBoxDB.record p t q now e).2.db := by
  unfold BrainBoxDB.record
  apply recordBody_ranges
  rw [ensureOpen_db]
  exact h

theorem decay_ranges (e : BrainBoxDB) (h : RangesOK e.db) :
    RangesOK (BrainBoxDB.decay e).2.db := by
  unfold BrainBoxDB.decay
  apply pruneNeurons_ranges
  apply pruneSynapses_ranges
  apply decaySynapses_ranges
  apply decayAll_ranges
  rw [ensureOpen_db]
  exact h

theorem applyOp_ranges (op : Op) (e : BrainBoxDB) (h : RangesOK e.db) :
    RangesOK (applyOp op e).db := by
  cases op with
  | record p t q now => exact record_ranges p t q now e h
  | decay => exact decay_ranges e h

theorem openFresh_ranges (sid : String) (t0 : Q) : RangesOK (openFresh sid t0).db := by
  constructor
  · intro nr hmem
    exact absurd hmem (List.not_mem_nil nr)
  · intro sy hmem
    exact absurd hmem (List.not_mem_nil sy)

/-! ## Synapse symmetry (claim C8) -/

theorem synKeyP_iff (x y : String) (s : Synapse) :
    synKeyP x y s = true ↔ s.source_id = x ∧ s.target_id = y := by
  unfold synKeyP
  simp

theorem synUpdateRow_source (u v : String) (delta now : Q) (s : Synapse) :
    (synUpdateRow u v delta now s).source_id = s.source_id := by
  unfold synUpdateRow
  split <;> rfl

theorem synUpdateRow_target (u v : String) (delta now : Q) (s : Synapse) :
    (synUpdateRow u v delta now s).target_id = s.target_id := by
  unfold synUpdateRow
  split <;> rfl

theorem synKeyP_updateRow (x y u v : String) (delta now : Q) (s : Synapse) :
    synKeyP x y (synUpdateRow u v delta now s) = synKeyP x y s := by
  unfold synKeyP
  rw [synUpdateRow_source, synUpdateRow_target]

theorem find?_map_fix {α : Type} (g : α → α) (p : α → Bool)
    (hp : ∀ x, p (g x) = p x) (l : List α) :
    (l.map g).find? p = (l.find? p).map g := by
  induction l with
  | nil => rfl
  | cons x xs ih =>
    rw [List.map_cons]
    cases hpx : p x
    · rw [List.find?_cons_of_neg _ (by simp [hp, hpx]),
        List.find?_cons_of_neg _ (by simp [hpx])]
      exact ih
    · rw [List.find?_cons_of_pos _ (by simp [hp, hpx]),
        List.find?_cons_of_pos _ (by simp [hpx])]
      rfl

theorem any_map_fix {α : Type} (g : α → α) (p : α → Bool)
    (hp : ∀ x, p (g x) = p x) (l : List α) :
    (l.map g).any p = l.any p := by
  induction l with
  | nil => rfl
  | cons x xs ih =>
    rw [List.map_cons, List.any_cons, List.any_cons, hp, ih]

theorem any_iff_synGet (db : DB) (x y : String) :
    db.synapses.any (synKeyP x y) = true ↔ (synGet db x y).isSome := by
  unfold synGet
  rw [List.any_eq_true]
  exact List.find?_isSome.symm

theorem upsertSynapse_fst_error (db : DB) (s t : String) (wt delta now : Q)
    (msg : String) (db1 : DB)
    (h : upsertSynapse db s t wt delta now = (.error msg, db1)) : db1 = db := by
  unfold upsertSynapse at h
  split at h
  · rw [Prod.mk.injEq] at h
    exact absurd h.1 (by simp)
  · split at h
    · rw [Prod.mk.injEq] at h
      exact absurd h.1 (by simp)
    · rw [Prod.mk.injEq] at h
      exact h.2.symm

theorem synGet_some_keys (db : DB) (x y : String) (r : Synapse)
    (h : synGet db x y = some r) : r.source_id = x ∧ r.target_id = y :=
  (synKeyP_iff x y r).mp (List.find?_some h)

theorem synUpdateRow_miss (u v : String) (delta now : Q) (s : Synapse)
    (hc : synKeyP u v s = false) : synUpdateRow u v delta now s = s := by
  unfold synUpdateRow
  rw [if_neg (by rw [hc]; exact Bool.false_ne_true)]

theorem synUpdateRow_hit (u v : String) (delta now : Q) (s : Synapse)
    (hc : synKeyP u v s = true) :
    (synUpdateRow u v delta now s).weight = weightUpdate s.weight delta := by
  unfold synUpdateRow
  rw [if_pos hc]

/-- Updating first the `(a,b)` key and then the `(b,a)` key, seen on
weight values: a row keyed in either direction gets the strengthening
formula once; any other row is untouched. -/
theorem doubleUpdate_weight_val (a b x y : String) (delta now : Q) (hab : a ≠ b)
    (s : Synapse) (hk : s.source_id = x ∧ s.target_id = y) :
    (synUpdateRow b a delta now (synUpdateRow a b delta now s)).weight.val =
    if (x = a ∧ y = b) ∨ (x = b ∧ y = a)
    then min (s.weight.val + delta.val * (1 - s.weight.val)) 1
    else s.weight.val := by
  by_cases h1 : x = a ∧ y = b
  · rw [if_pos (Or.inl h1)]
    have hk1 : synKeyP a b s = true :=
      (synKeyP_iff a b s).mpr ⟨hk.1.trans h1.1, hk.2.trans h1.2⟩
    have hba : synKeyP b a s = false := by
      unfold synKeyP
      have hsx : s.source_id = a := hk.1.trans h1.1
      rw [hsx]
      simp [hab]
    have hba2 : synKeyP b a (synUpdateRow a b delta now s) = false := by
      rw [synKeyP_updateRow]
      exact hba
    rw [synUpdateRow_miss _ _ _ _ _ hba2, synUpdateRow_hit _ _ _ _ _ hk1,
      weightUpdate_val]
  · by_cases h2 : x = b ∧ y = a
    · rw [if_pos (Or.inr h2)]
      have hk1 : synKeyP a b s = false := by
        unfold synKeyP
        have hsx : s.source_id = b := hk.1.trans h2.1
        rw [hsx]
        simp [Ne.symm hab]
      have hk2 : synKeyP b a s = true :=
        (synKeyP_iff b a s).mpr ⟨hk.1.trans h2.1, hk.2.trans h2.2⟩
      rw [synUpdateRow_miss _ _ _ _ _ hk1, synUpdateRow_hit _ _ _ _ _ hk2,
        weightUpdate_val]
    · rw [if_neg (by tauto)]
      have hk1 : synKeyP a b s = false := by
        cases hc : synKeyP a b s
        · rfl
        · exact absurd ⟨hk.1.symm.trans ((synKeyP_iff a b s).mp hc).1,
            hk.2.symm.trans ((synKeyP_iff a b s).mp hc).2⟩ h1
      have hk2 : synKeyP b a s = false := by
        cases hc : synKeyP b a s
        · rfl
        · exact absurd ⟨hk.1.symm.trans ((synKeyP_iff b a s).mp hc).1,
            hk.2.symm.trans ((synKeyP_iff b a s).mp hc).2⟩ h2
      rw [synUpdateRow_miss _ _ _ _ _ hk1, synUpdateRow_miss _ _ _ _ _ hk2]

theorem synKeyP_newRow (x y u v : String) (wt now : Q) :
    synKeyP x y (synNewRow u v wt now) = (u == x && v == y) := rfl

/-- After a successful `(a,b)` upsert followed by the mirror `(b,a)`
upsert, the table is symmetric again. -/
theorem pair_symm (db : DB) (a b : String) (wt delta now : Q) (hab : a ≠ b)
    (h : SymW db) (u : Unit) (db1 : DB)
    (hfst : upsertSynapse db a b wt delta now = (.ok u, db1)) :
    SymW (upsertSynapse db1 b a wt delta now).2 := by
  unfold upsertSynapse at hfst
  by_cases c1 : db.synapses.any (synKeyP a b) = true
  · rw [if_pos c1] at hfst
    rw [Prod.mk.injEq] at hfst
    have hdb1 : db1 = { db with synapses := db.synapses.map (synUpdateRow a b delta now) } :=
      hfst.2.symm
    have hsome_ab : (synGet db a b).isSome := (any_iff_synGet db a b).mp c1
    have hsome_ba : (synGet db b a).isSome := by
      have hmap := congrArg Option.isSome (h a b)
      rw [Option.isSome_map', Option.isSome_map'] at hmap
      rw [← hmap]
      exact hsome_ab
    have hba : db1.synapses.any (synKeyP b a) = true := by
      rw [hdb1]
      show (db.synapses.map (synUpdateRow a b delta now)).any (synKeyP b a) = true
      rw [any_map_fix _ _ (fun s => synKeyP_updateRow b a a b delta now s)]
      exact (any_iff_synGet db b a).mpr hsome_ba
    unfold upsertSynapse
    rw [if_pos hba]
    intro x y
    show ((db1.synapses.map (synUpdateRow b a delta now)).find? (synKeyP x y)).map
        (fun s => s.weight.val) =
      ((db1.synapses.map (synUpdateRow b a delta now)).find? (synKeyP y x)).map
        (fun s => s.weight.val)
    rw [hdb1]
    show (((db.synapses.map (synUpdateRow a b delta now)).map
        (synUpdateRow b a delta now)).find? (synKeyP x y)).map (fun s => s.weight.val) =
      (((db.synapses.map (synUpdateRow a b delta now)).map
        (synUpdateRow b a delta now)).find? (synKeyP y x)).map (fun s => s.weight.val)
    rw [find?_map_fix _ _ (fun s => synKeyP_updateRow x y b a delta now s),
      find?_map_fix _ _ (fun s => synKeyP_updateRow x y a b delta now s),
      find?_map_fix _ _ (fun s => synKeyP_updateRow y x b a delta now s),
      find?_map_fix _ _ (fun s => synKeyP_updateRow y x a b delta now s)]
    rw [Option.map_map, Option.map_map, Option.map_map, Option.map_map]
    rw [show List.find? (synKeyP x y) db.synapses = synGet db x y from rfl,
      show List.find? (synKeyP y x) db.synapses = synGet db y x from rfl]
    have hsym := h x y
    cases hxy : synGet db x y with
    | none =>
      cases hyx : synGet db y x with
      | none => rfl
      | some r2 =>
        rw [hxy, hyx] at hsym
        simp at hsym
    | some r =>
      cases hyx : synGet db y x with
      | none =>
        rw [hxy, hyx] at hsym
        simp at hsym
      | some r2 =>
        rw [hxy, hyx] at hsym
        simp only [Option.map_some', Option.some.injEq] at hsym
        show some ((synUpdateRow b a delta now (synUpdateRow a b delta now r)).weight.val) =
          some ((synUpdateRow b a delta now (synUpdateRow a b delta now r2)).weight.val)
        rw [doubleUpdate_weight_val a b x y delta now hab r (synGet_some_keys db x y r hxy),
          doubleUpdate_weight_val a b y x delta now hab r2 (synGet_some_keys db y x r2 hyx)]
        by_cases hp : (x = a ∧ y = b) ∨ (x = b ∧ y = a)
        · rw [if_pos hp, if_pos (by tauto), hsym]
        · rw [if_neg hp, if_neg (by tauto), hsym]
  · rw [if_neg c1] at hfst
    by_cases c2 : (db.neurons.any (fun nr => nr.id == a) && db.neurons.any (fun nr => nr.id == b)) = true
    · rw [if_pos c2] at hfst
      rw [Prod.mk.injEq] at hfst
      have hdb1 : db1 = { db with synapses := db.synapses ++ [synNewRow a b wt now] } :=
        hfst.2.symm
      have hnone_ab : synGet db a b = none := by
        cases ho : synGet db a b with
        | none => rfl
        | some r =>
          exact absurd ((any_iff_synGet db a b).mpr (by rw [ho]; rfl)) c1
      have hnone_ba : synGet db b a = none := by
        have hsym := h a b
        rw [hnone_ab] at hsym
        cases ho : synGet db b a with
        | none => rfl
        | some r =>
          rw [ho] at hsym
          simp at hsym
      have hanyl_ba : db.synapses.any (synKeyP b a) = false := by
        cases he : db.synapses.any (synKeyP b a) with
        | false => rfl
        | true =>
          have his := (any_iff_synGet db b a).mp he
          rw [hnone_ba] at his
          exact absurd his (by simp)
      have hanyba : db1.synapses.any (synKeyP b a) = false := by
        rw [hdb1]
        show (db.synapses ++ [synNewRow a b wt now]).any (synKeyP b a) = false
        rw [List.any_append, hanyl_ba]
        have e2 : [synNewRow a b wt now].any (synKeyP b a) = false := by
          rw [List.any_cons, synKeyP_newRow]
          simp [hab]
        rw [e2]
        rfl
      unfold upsertSynapse
      rw [if_neg (by rw [hanyba]; exact Bool.false_ne_true)]
      have c2s : (db1.neurons.any (fun nr => nr.id == b) && db1.neurons.any (fun nr => nr.id == a)) = true := by
        have hneu : db1.neurons = db.neurons := by rw [hdb1]
        rw [hneu]
        rw [Bool.and_eq_true] at c2 ⊢
        exact ⟨c2.2, c2.1⟩
      rw [if_pos c2s]
      intro x y
      show ((db1.synapses ++ [synNewRow b a wt now]).find? (synKeyP x y)).map
          (fun s => s.weight.val) =
        ((db1.synapses ++ [synNewRow b a wt now]).find? (synKeyP y x)).map
          (fun s => s.weight.val)
      rw [hdb1]
      show (((db.synapses ++ [synNewRow a b wt now]) ++ [synNewRow b a wt now]).find?
          (synKeyP x y)).map (fun s => s.weight.val) =
        (((db.synapses ++ [synNewRow a b wt now]) ++ [synNewRow b a wt now]).find?
          (synKeyP y x)).map (fun s => s.weight.val)
      rw [List.find?_append, List.find?_append, List.find?_append, List.find?_append]
      by_cases h1 : x = a ∧ y = b
      · obtain ⟨hx, hy⟩ := h1
        subst hx
        subst hy
        rw [show db.synapses.find? (synKeyP x y) = synGet db x y from rfl, hnone_ab,
          show db.synapses.find? (synKeyP y x) = synGet db y x from rfl, hnone_ba]
        have f1 : [synNewRow x y wt now].find? (synKeyP x y) = some (synNewRow x y wt now) :=
          List.find?_cons_of_pos _ (by rw [synKeyP_newRow]; simp)
        have f2 : [synNewRow x y wt now].find? (synKeyP y x) = none := by
          rw [show ([synNewRow x y wt now].find? (synKeyP y x)) =
            (if synKeyP y x (synNewRow x y wt now) then some (synNewRow x y wt now) else none) from by
              rw [List.find?_cons]
              cases hc : synKeyP y x (synNewRow x y wt now) <;> simp [hc]]
          rw [synKeyP_newRow]
          simp [hab]
        have f3 : [synNewRow y x wt now].find? (synKeyP y x) = some (synNewRow y x wt now) :=
          List.find?_cons_of_pos _ (by rw [synKeyP_newRow]; simp)
        rw [f1, f2, f3]
        rfl
      · by_cases h2 : x = b ∧ y = a
        · obtain ⟨hx, hy⟩ := h2
          subst hx
          subst hy
          rw [show db.synapses.find? (synKeyP x y) = synGet db x y from rfl, hnone_ba,
            show db.synapses.find? (synKeyP y x) = synGet db y x from rfl, hnone_ab]
          have f1 : [synNewRow y x wt now].find? (synKeyP x y) = none := by
            rw [show ([synNewRow y x wt now].find? (synKeyP x y)) =
              (if synKeyP x y (synNewRow y x wt now) then some (synNewRow y x wt now) else none) from by
                rw [List.find?_cons]
                cases hc : synKeyP x y (synNewRow y x wt now) <;> simp [hc]]
            rw [synKeyP_newRow]
            simp [hab]
          have f2 : [synNewRow x y wt now].find? (synKeyP x y) = some (synNewRow x y wt now) :=
            List.find?_cons_of_pos _ (by rw [synKeyP_newRow]; simp)
          have f3 : [synNewRow y x wt now].find? (synKeyP y x) = some (synNewRow y x wt now) :=
            List.find?_cons_of_pos _ (by rw [synKeyP_newRow]; simp)
          rw [f1, f2, f3]
          rfl
        · have f1 : [synNewRow a b wt now].find? (synKeyP x y) = none := by
            rw [show ([synNewRow a b wt now].find? (synKeyP x y)) =
              (if synKeyP x y (synNewRow a b wt now) then some (synNewRow a b wt now) else none) from by
                rw [List.find?_cons]
                cases hc : synKeyP x y (synNewRow a b wt now) <;> simp [hc]]
            rw [synKeyP_newRow]
            cases hc1 : (a == x) <;> cases hc2 : (b == y) <;> simp_all
          have f2 : [synNewRow b a wt now].find? (synKeyP x y) = none := by
            rw [show ([synNewRow b a wt now].find? (synKeyP x y)) =
              (if synKeyP x y (synNewRow b a wt now) then some (synNewRow b a wt now) else none) from by
                rw [List.find?_cons]
                cases hc : synKeyP x y (synNewRow b a wt now) <;> simp [hc]]
            rw [synKeyP_newRow]
            cases hc1 : (b == x) <;> cases hc2 : (a == y) <;> simp_all
          have f3 : [synNewRow a b wt now].find? (synKeyP y x) = none := by
            rw [show ([synNewRow a b wt now].find? (synKeyP y x)) =
              (if synKeyP y x (synNewRow a b wt now) then some (synNewRow a b wt now) else none) from by
                rw [List.find?_cons]
                cases hc : synKeyP y x (synNewRow a b wt now) <;> simp [hc]]
            rw [synKeyP_newRow]
            cases hc1 : (a == y) <;> cases hc2 : (b == x) <;> simp_all
          have f4 : [synNewRow b a wt now].find? (synKeyP y x) = none := by
            rw [show ([synNewRow b a wt now].find? (synKeyP y x)) =
              (if synKeyP y x (synNewRow b a wt now) then some (synNewRow b a wt now) else none) from by
                rw [List.find?_cons]
                cases hc : synKeyP y x (synNewRow b a wt now) <;> simp [hc]]
            rw [synKeyP_newRow]
            cases hc1 : (b == y) <;> cases hc2 : (a == x) <;> simp_all
          rw [f1, f2, f3, f4]
          simp only [Option.or_none]
          exact h x y
    · rw [if_neg c2] at hfst
      rw [Prod.mk.injEq] at hfst
      exact absurd hfst.1 (by simp)

theorem hebLoop_symm (id : String) (now : Q) (len : Nat) (l : List String)
    (i : Nat) (db : DB) (h : SymW db) :
    SymW (BrainBoxDB.hebLoop id now len i l db).2 := by
  induction l generalizing i db with
  | nil => exact h
  | cons r rest ih =>
    unfold BrainBoxDB.hebLoop
    by_cases hr : (r == id) = true
    · rw [if_pos hr]
      exact ih i.succ db h
    · rw [if_neg hr]
      have hidr : id ≠ r := by
        intro hcon
        exact hr (by rw [hcon]; exact beq_self_eq_true r)
      split
      · next msg db1 heq =>
        have hdb1 : db1 = db :=
          upsertSynapse_fst_error db id r _ _ now msg db1 heq
        rw [hdb1]
        exact h
      · next u db1 heq =>
        have hps := pair_symm db id r (BrainBoxDB.hebDelta i len)
          (BrainBoxDB.hebDelta i len) now hidr h u db1 heq
        split
        · next msg db2 heq2 =>
          rw [heq2] at hps
          exact hps
        · next u2 db2 heq2 =>
          rw [heq2] at hps
          exact ih (i + 1) db2 hps

theorem SymW_of_synapses_eq (db1 db2 : DB) (he : db1.synapses = db2.synapses)
    (h : SymW db2) : SymW db1 := by
  intro x y
  unfold synGet
  rw [he]
  exact h x y

theorem upsertNeuron_synapses (db : DB) (id type_ path : String) (act my now : Q)
    (ctx : Blob) : (upsertNeuron db id type_ path act my now ctx).synapses = db.synapses := by
  unfold upsertNeuron
  split <;> rfl

theorem logAccess_synapses (db : DB) (nid sid : String) (query : Option String)
    (now : Q) (tc ao : Nat) :
    (logAccess db nid sid query now tc ao).synapses = db.synapses := rfl

theorem updateSession_synapses (db : DB) (id : String) (tk : Nat) :
    (updateSession db id tk).synapses = db.synapses := rfl

theorem recordBody_symm (p t : String) (q : Option String) (now : Q)
    (e : BrainBoxDB) (h : SymW e.db) :
    SymW (BrainBoxDB.recordBody p t q now e).2.db := by
  unfold BrainBoxDB.recordBody
  cases hex : getNeuron e.db (t ++ ":" ++ p) with
  | none =>
    simp only [hex]
    split
    · next msg db3 heq =>
      have h2 := congrArg Prod.snd heq
      simp only at h2
      rw [← h2]
      apply hebLoop_symm
      apply SymW_of_synapses_eq _ e.db _ h
      rw [logAccess_synapses, upsertNeuron_synapses]
    · next u db3 heq =>
      have h2 := congrArg Prod.snd heq
      simp only at h2
      apply SymW_of_synapses_eq _ db3 (updateSession_synapses db3 e.sessionId _)
      rw [← h2]
      apply hebLoop_symm
      apply SymW_of_synapses_eq _ e.db _ h
      rw [logAccess_synapses, upsertNeuron_synapses]
  | some nr =>
    simp only [hex]
    cases hp : nr.contexts.parse with
    | error msg => simp only [hp]; exact h
    | ok ctx =>
      simp only [hp]
      split
      · next msg db3 heq =>
        have h2 := congrArg Prod.snd heq
        simp only at h2
        rw [← h2]
        apply hebLoop_symm
        apply SymW_of_synapses_eq _ e.db _ h
        rw [logAccess_synapses, upsertNeuron_synapses]
      · next u db3 heq =>
        have h2 := congrArg Prod.snd heq
        simp only at h2
        apply SymW_of_synapses_eq _ db3 (updateSession_synapses db3 e.sessionId _)
        rw [← h2]
        apply hebLoop_symm
        apply SymW_of_synapses_eq _ e.db _ h
        rw [logAccess_synapses, upsertNeuron_synapses]

theorem record_symm (p t : String) (q : Option String) (now : Q)
    (e : BrainBoxDB) (h : SymW e.db) :
    SymW (BrainBoxDB.record p t q now e).2.db := by
  unfold BrainBoxDB.record
  apply recordBody_symm
  rw [ensureOpen_db]
  exact h

theorem openFresh_symm (sid : String) (t0 : Q) : SymW (openFresh sid t0).db := by
  intro x y
  rfl

/-! ## The effect of `record` on the neurons table (claims C2 and C5) -/

theorem upsertSynapse_neurons (db : DB) (source target : String) (wt delta now : Q) :
    (upsertSynapse db source target wt delta now).2.neurons = db.neurons := by
  unfold upsertSynapse
  split
  · rfl
  · split <;> rfl

theorem hebLoop_neurons (id : String) (now : Q) (len : Nat) (l : List String)
    (i : Nat) (db : DB) :
    (BrainBoxDB.hebLoop id now len i l db).2.neurons = db.neurons := by
  induction l generalizing i db with
  | nil => rfl
  | cons r rest ih =>
    unfold BrainBoxDB.hebLoop
    by_cases hr : (r == id) = true
    · rw [if_pos hr]
      exact ih i.succ db
    · rw [if_neg hr]
      split
      · next msg db1 heq =>
        have h2 := congrArg Prod.snd heq
        simp only at h2
        show db1.neurons = db.neurons
        rw [← h2, upsertSynapse_neurons]
      · next u db1 heq =>
        have h2 := congrArg Prod.snd heq
        simp only at h2
        split
        · next msg db2 heq2 =>
          have h3 := congrArg Prod.snd heq2
          simp only at h3
          show db2.neurons = db.neurons
          rw [← h3, upsertSynapse_neurons, ← h2, upsertSynapse_neurons]
        · next u2 db2 heq2 =>
          have h3 := congrArg Prod.snd heq2
          simp only at h3
          rw [ih (i + 1) db2, ← h3, upsertSynapse_neurons, ← h2, upsertSynapse_neurons]

theorem logAccess_neurons (db : DB) (nid sid : String) (query : Option String)
    (now : Q) (tc ao : Nat) :
    (logAccess db nid sid query now tc ao).neurons = db.neurons := rfl

theorem updateSession_neurons (db : DB) (id : String) (tk : Nat) :
    (updateSession db id tk).neurons = db.neurons := rfl

theorem any_eq_false_of_find?_none {α : Type} (p : α → Bool) (l : List α)
    (h : l.find? p = none) : l.any p = false := by
  cases ha : l.any p with
  | false => rfl
  | true =>
    obtain ⟨x, hmem, hpx⟩ := List.any_eq_true.mp ha
    exact absurd hpx (List.find?_eq_none.mp h x hmem)

/-- A `record` for a `(type, path)` with no stored neuron appends
exactly one fresh neuron row: `activation = 1`, `myelination = 0`,
`access_count = 1`, contexts from the pushed query. -/
theorem recordBody_fresh (p t : String) (q : Option String) (n0 : Q)
    (e : BrainBoxDB) (h : getNeuron e.db (t ++ ":" ++ p) = none) :
    (BrainBoxDB.recordBody p t q n0 e).2.db.neurons =
      e.db.neurons ++ [neuronNewRow (t ++ ":" ++ p) t p (qq 1 1) (qq 0 1) n0
        (Blob.enc (BrainBoxDB.nextContexts [] q))] := by
  have hany : e.db.neurons.any (fun nr => nr.id == t ++ ":" ++ p) = false :=
    any_eq_false_of_find?_none _ _ h
  unfold BrainBoxDB.recordBody
  simp only [h]
  split
  · next msg db3 heq =>
    have h2 := congrArg Prod.snd heq
    simp only at h2
    show db3.neurons = _
    rw [← h2, hebLoop_neurons, logAccess_neurons]
    unfold upsertNeuron
    rw [if_neg (by rw [hany]; exact Bool.false_ne_true)]
  · next u db3 heq =>
    have h2 := congrArg Prod.snd heq
    simp only at h2
    show (updateSession db3 e.sessionId _).neurons = _
    rw [updateSession_neurons, ← h2, hebLoop_neurons, logAccess_neurons]
    unfold upsertNeuron
    rw [if_neg (by rw [hany]; exact Bool.false_ne_true)]

theorem record_fresh (p t : String) (q : Option String) (n0 : Q)
    (e : BrainBoxDB) (h : getNeuron e.db (t ++ ":" ++ p) = none) :
    (BrainBoxDB.record p t q n0 e).2.db.neurons =
      e.db.neurons ++ [neuronNewRow (t ++ ":" ++ p) t p (qq 1 1) (qq 0 1) n0
        (Blob.enc (BrainBoxDB.nextContexts [] q))] := by
  unfold BrainBoxDB.record
  rw [recordBody_fresh p t q n0 (BrainBoxDB.ensureOpen e) (by rw [ensureOpen_db]; exact h),
    ensureOpen_db]

/-- A `record` for a `(type, path)` whose stored neuron has a decodable
contexts blob maps the conflict update over the neurons table. -/
theorem record_update (p t : String) (q : Option String) (n0 : Q)
    (e : BrainBoxDB) (nr : Neuron) (ctx : List String)
    (h : getNeuron e.db (t ++ ":" ++ p) = some nr)
    (hctx : nr.contexts = Blob.enc ctx) :
    (BrainBoxDB.record p t q n0 e).2.db.neurons =
      e.db.neurons.map (neuronUpdateRow (qq 1 1) n0
        (Blob.enc (BrainBoxDB.nextContexts ctx q)) (t ++ ":" ++ p)) := by
  have hf : e.db.neurons.find? (fun x => x.id == t ++ ":" ++ p) = some nr := h
  have hany : e.db.neurons.any (fun x => x.id == t ++ ":" ++ p) = true := by
    rw [List.any_eq_true]
    have hp := List.find?_some hf
    exact ⟨nr, List.mem_of_find?_eq_some hf, hp⟩
  unfold BrainBoxDB.record BrainBoxDB.recordBody
  simp only [ensureOpen_db, h, hctx, Blob.parse]
  split
  · next msg db3 heq =>
    have h2 := congrArg Prod.snd heq
    simp only at h2
    show db3.neurons = _
    rw [← h2, hebLoop_neurons, logAccess_neurons]
    unfold upsertNeuron
    rw [if_pos hany]
  · next u db3 heq =>
    have h2 := congrArg Prod.snd heq
    simp only at h2
    show (updateSession db3 _ _).neurons = _
    rw [updateSession_neurons, ← h2, hebLoop_neurons, logAccess_neurons]
    unfold upsertNeuron
    rw [if_pos hany]

/-! ## Small facts about `recall`, `ensureOpen` and `close`
(claims C5, C9, C10) -/

theorem jsSliceEnd_zero {α : Type} (l : List α) : BrainBoxDB.jsSliceEnd l 0 = [] := by
  unfold BrainBoxDB.jsSliceEnd
  rw [if_neg (by norm_num)]
  rfl

theorem recallCore_limit_zero (db : DB) (query type_ : String) (now : Q)
    (rs : List RecallResult)
    (h : BrainBoxDB.recallCore db query type_ 0 now = .ok rs) : rs = [] := by
  unfold BrainBoxDB.recallCore at h
  split at h
  · exact Except.noConfusion h
  · split at h
    · exact Except.noConfusion h
    · split at h
      · exact Except.noConfusion h
      · rw [Except.ok.injEq] at h
        rw [← h, jsSliceEnd_zero]

theorem recall_limit_zero (query type_ : String) (now : Q) (e : BrainBoxDB)
    (rs : List RecallResult)
    (h : (BrainBoxDB.recallOp query type_ 0 now e).1 = .ok rs) : rs = [] :=
  recallCore_limit_zero (BrainBoxDB.ensureOpen e).db query type_ now rs h

theorem ensureOpen_recentAccesses (e : BrainBoxDB) :
    (BrainBoxDB.ensureOpen e).recentAccesses = e.recentAccesses := by
  unfold BrainBoxDB.ensureOpen
  split <;> rfl

theorem ensureOpen_accessOrder (e : BrainBoxDB) :
    (BrainBoxDB.ensureOpen e).accessOrder = e.accessOrder := by
  unfold BrainBoxDB.ensureOpen
  split <;> rfl

theorem ensureOpen_sessionId (e : BrainBoxDB) :
    (BrainBoxDB.ensureOpen e).sessionId = e.sessionId := by
  unfold BrainBoxDB.ensureOpen
  split <;> rfl

theorem ensureOpen_close (e : BrainBoxDB) :
    BrainBoxDB.ensureOpen (BrainBoxDB.close e) = BrainBoxDB.ensureOpen e := by
  cases e with
  | mk db o ra sid ao =>
    cases o
    · rfl
    · rfl

/-! ## Claim theorems -/

/-- C1: for every sequence of `record` and `decay` operations starting
from an empty database, every neuron row satisfies
`0 ≤ activation ≤ 1 ∧ 0 ≤ myelination ≤ 0.95` and every synapse row
satisfies `0 ≤ weight ≤ 1` after each operation completes (every prefix
of an operation sequence is itself an operation sequence). -/
theorem C1_numeric_ranges (sid : String) (t0 : Q) (ops : List Op) :
    RangesOK (applyOps ops (openFresh sid t0)).db := by
  unfold applyOps
  exact foldl_preserve (fun ee => RangesOK ee.db)
    (fun ee op => applyOp op ee) ops
    (fun b a _ hb => applyOp_ranges a b hb)
    (openFresh sid t0) (openFresh_ranges sid t0)

/-- C2 (counterexample): recording the same `(path, type)` twice from a
fresh engine leaves the single neuron with `access_count = 2` but with
myelination `0.02`, one application of the update formula, not the
claimed two applications (`0.0396`): the insert branch stores
myelination `0`, and only the second call's conflict branch advances
it. -/
theorem C2_counterexample :
    (twiceEngine.db.neurons.map (fun nr =>
      (nr.access_count,
       nr.myelination.beq (myelinUpdate (myelinUpdate (qq 0 1))),
       nr.myelination.beq (myelinUpdate (qq 0 1))))) = [(2, false, true)] ∧
    (myelinUpdate (myelinUpdate (qq 0 1))).val = 0.0396 ∧
    (myelinUpdate (qq 0 1)).val = 0.02 := by
  refine ⟨by decide, ?_, ?_⟩
  · rw [myelinUpdate_val, myelinUpdate_val, val_zeroQ]
    norm_num
  · rw [myelinUpdate_val, val_zeroQ]
    norm_num

/-- C2 (amended): calling `record(p, t, …)` twice on an engine with no
pre-existing neuron for `(t, p)` produces exactly one neuron with
`access_count = 2` and with myelination advanced once by the update
formula `m ← min(m + 0.02·(1−m), 0.95)` starting from `0` (the insert
branch leaves myelination at `0`; only the second call's conflict
update applies the formula), i.e. final myelination `0.02`. -/
theorem C2_record_twice (p t : String) (q1 q2 : Option String) (n1 n2 : Q)
    (e : BrainBoxDB) (h : getNeuron e.db (t ++ ":" ++ p) = none) :
    ((BrainBoxDB.record p t q2 n2 (BrainBoxDB.record p t q1 n1 e).2).2.db.neurons.filter
        (fun nr => nr.id == t ++ ":" ++ p)) =
      [⟨t ++ ":" ++ p, t, p, qq 1 1, myelinUpdate (qq 0 1), 2, some n2, n1,
        Blob.enc (BrainBoxDB.nextContexts (BrainBoxDB.nextContexts [] q1) q2)⟩] ∧
    (myelinUpdate (qq 0 1)).val = 0.02 := by
  have hf := record_fresh p t q1 n1 e h
  have hget1 : getNeuron (BrainBoxDB.record p t q1 n1 e).2.db (t ++ ":" ++ p) =
      some (neuronNewRow (t ++ ":" ++ p) t p (qq 1 1) (qq 0 1) n1
        (Blob.enc (BrainBoxDB.nextContexts [] q1))) := by
    show (BrainBoxDB.record p t q1 n1 e).2.db.neurons.find? _ = _
    rw [hf, List.find?_append]
    rw [show e.db.neurons.find? (fun nr => nr.id == t ++ ":" ++ p) = none from h]
    rw [Option.none_or]
    exact List.find?_cons_of_pos _ (beq_self_eq_true (t ++ ":" ++ p))
  have hu := record_update p t q2 n2 (BrainBoxDB.record p t q1 n1 e).2
    (neuronNewRow (t ++ ":" ++ p) t p (qq 1 1) (qq 0 1) n1
      (Blob.enc (BrainBoxDB.nextContexts [] q1)))
    (BrainBoxDB.nextContexts [] q1) hget1 rfl
  constructor
  · rw [hu, hf, List.map_append]
    rw [List.filter_append]
    have hleft : ((e.db.neurons.map (neuronUpdateRow (qq 1 1) n2
        (Blob.enc (BrainBoxDB.nextContexts (BrainBoxDB.nextContexts [] q1) q2))
        (t ++ ":" ++ p))).filter (fun nr => nr.id == t ++ ":" ++ p)) = [] := by
      rw [List.filter_eq_nil_iff]
      intro x hx
      rw [List.mem_map] at hx
      obtain ⟨y, hy, hxy⟩ := hx
      have hid : x.id = y.id := by
        rw [← hxy]
        unfold neuronUpdateRow
        split <;> rfl
      rw [hid]
      exact List.find?_eq_none.mp h y hy
    rw [hleft]
    have hone : (([neuronNewRow (t ++ ":" ++ p) t p (qq 1 1) (qq 0 1) n1
        (Blob.enc (BrainBoxDB.nextContexts [] q1))].map (neuronUpdateRow (qq 1 1) n2
        (Blob.enc (BrainBoxDB.nextContexts (BrainBoxDB.nextContexts [] q1) q2))
        (t ++ ":" ++ p))).filter (fun nr => nr.id == t ++ ":" ++ p)) =
        [⟨t ++ ":" ++ p, t, p, qq 1 1, myelinUpdate (qq 0 1), 2, some n2, n1,
          Blob.enc (BrainBoxDB.nextContexts (BrainBoxDB.nextContexts [] q1) q2)⟩] := by
      simp [neuronUpdateRow, neuronNewRow, List.filter_cons]
    rw [hone]
    rfl
  · rw [myelinUpdate_val, val_zeroQ]
    norm_num

/-- C2 (witness): the amended theorem at a fresh engine and
`p = "/x"`. -/
theorem C2_witness :
    ((BrainBoxDB.record "/x" "file" none (qq 1 1)
        (BrainBoxDB.record "/x" "file" none (qq 0 1) (openFresh "s" (qq 0 1))).2).2.db.neurons.filter
      (fun nr => nr.id == "file" ++ ":" ++ "/x")) =
      [⟨"file" ++ ":" ++ "/x", "file", "/x", qq 1 1, myelinUpdate (qq 0 1), 2,
        some (qq 1 1), qq 0 1,
        Blob.enc (BrainBoxDB.nextContexts (BrainBoxDB.nextContexts [] none) none)⟩] ∧
    (myelinUpdate (qq 0 1)).val = 0.02 :=
  C2_record_twice "/x" "file" none none (qq 0 1) (qq 1 1) (openFresh "s" (qq 0 1)) rfl

/-- C3 (counterexample): after recording two neurons once and invoking
`decay()` 200 times, the neurons do NOT survive: the neurons table is
empty (their myelination was `0 < 0.01` from the start, so once
activation decays under `0.01` the prune predicate — which deletes on
`access_count < 2` — removes them). -/
theorem C3_counterexample :
    (iterDecay 200 decayPairEngine).db.neurons.length = 0 := by
  set_option maxRecDepth 40000 in decide

/-- C3 (amended): record two neurons once (their connecting synapses
have weight `0.1`); after `decay()` 200 times both the synapses and the
neurons are gone, but not by weight pruning: at the 29th `decay` call
the synapse weights are still at or above the prune threshold `0.05`,
while both neurons satisfy the prune predicate (`activation < 0.01`,
`myelination = 0 < 0.01`, `access_count = 1 < 2`), so that call deletes
the two neurons (`decay` returns `(pruned_synapses, pruned_neurons) =
(0, 2)`) and the synapses die by `ON DELETE CASCADE`. -/
theorem C3_decay_prunes_everything :
    ((iterDecay 28 decayPairEngine).db.neurons.length = 2 ∧
     (iterDecay 28 decayPairEngine).db.synapses.length = 2) ∧
    ((iterDecay 28 decayPairEngine).db.synapses.all
      (fun s => SYNAPSE_PRUNE_THRESHOLD.ble
        (s.weight.mul ((qq 1 1).sub SYNAPSE_DECAY_RATE)))) = true ∧
    (BrainBoxDB.decay (iterDecay 28 decayPairEngine)).1 = (0, 2) ∧
    (iterDecay 29 decayPairEngine).db.neurons.length = 0 ∧
    (iterDecay 29 decayPairEngine).db.synapses.length = 0 ∧
    (iterDecay 200 decayPairEngine).db.neurons.length = 0 ∧
    (iterDecay 200 decayPairEngine).db.synapses.length = 0 := by
  set_option maxRecDepth 40000 in decide

/-- C4 (counterexample): `record("/x", file, "grep foo")` then
`record("/y", file, "grep foo")` creates two synapse rows, not the
claimed four: recording `/x` sees an empty co-access window, and
recording `/y` strengthens the single pair `(/y, /x)` in both
directions. -/
theorem C4_counterexample : ¬ (pairEngine.db.synapses.length = 4) := by
  decide

/-- C4 (amended): from an empty database, `record("/x", file, "grep
foo")` then `record("/y", file, "grep foo")` yields exactly two neurons
and two synapses — `/y → /x` and `/x → /y`, both with weight `0.1` —
and a subsequent `recall("foo", file, 5)` returns both `/x` and `/y`,
both as direct matches with confidence `≥ 0.4`. -/
theorem C4_hebbian_pair :
    pairEngine.db.neurons.length = 2 ∧
    (pairEngine.db.synapses.map (fun s =>
      (s.source_id, s.target_id, s.weight.beq (qq 1 10)))) =
      [("file:/y", "file:/x", true), ("file:/x", "file:/y", true)] ∧
    (qq 1 10).val = 0.1 ∧
    ((BrainBoxDB.recallOp "foo" "file" 5 (qq 0 1) pairEngine).1.map (fun rs =>
      (rs.length,
       rs.any (fun r => r.neuron.id == "file:/x"),
       rs.any (fun r => r.neuron.id == "file:/y"),
       rs.map (fun r => r.activation_path),
       rs.all (fun r => CONFIDENCE_GATE.ble r.confidence))))
      = .ok (2, true, true, ["direct", "direct"], true) := by
  refine ⟨by decide, by decide, ?_, by rfl⟩
  rw [Q.val_qq 1 10 (by norm_num)]
  norm_num

/-- C5 (counterexample): `record` performs no input validation: with an
empty path on a fresh engine it creates the neuron `"file:"` rather
than being a no-op. -/
theorem C5_counterexample :
    ((BrainBoxDB.record "" "file" none (qq 0 1)
        (openFresh "s" (qq 0 1))).2.db.neurons.map (fun nr => nr.id)) = ["file:"] ∧
    ¬ ((BrainBoxDB.record "" "file" none (qq 0 1)
        (openFresh "s" (qq 0 1))).2.db.neurons.length = 0) := by
  constructor
  · decide
  · decide

/-- C5 (amended): neither call validates its input, and neither raises
on it: `record` with an empty path (or any unknown type string) still
creates a neuron under the composite id `type ++ ":"` when none exists,
and `recall` with `limit = 0`, whenever it completes, returns the empty
list (a negative limit instead drops trailing entries, JS `slice`
semantics). -/
theorem C5_invalid_input :
    (∀ (e : BrainBoxDB) (t : String) (q : Option String) (now : Q),
      getNeuron e.db (t ++ ":" ++ "") = none →
      (BrainBoxDB.record "" t q now e).2.db.neurons =
        e.db.neurons ++ [neuronNewRow (t ++ ":" ++ "") t "" (qq 1 1) (qq 0 1) now
          (Blob.enc (BrainBoxDB.nextContexts [] q))]) ∧
    (∀ (query type_ : String) (now : Q) (e : BrainBoxDB) (rs : List RecallResult),
      (BrainBoxDB.recallOp query type_ 0 now e).1 = .ok rs → rs = []) := by
  constructor
  · intro e t q now h
    exact record_fresh "" t q now e h
  · exact recall_limit_zero

/-- C5 (witness): the amended theorem at a fresh engine, with an
unknown type string for good measure. -/
theorem C5_witness :
    ((BrainBoxDB.record "" "mystery" none (qq 0 1)
        (openFresh "s" (qq 0 1))).2.db.neurons =
      (openFresh "s" (qq 0 1)).db.neurons ++
        [neuronNewRow ("mystery" ++ ":" ++ "") "mystery" "" (qq 1 1) (qq 0 1) (qq 0 1)
          (Blob.enc (BrainBoxDB.nextContexts [] none))]) ∧
    (([] : List RecallResult) = []) :=
  ⟨C5_invalid_input.1 (openFresh "s" (qq 0 1)) "mystery" none (qq 0 1) rfl,
   C5_invalid_input.2 "nothing" "file" (qq 0 1) (openFresh "s" (qq 0 1)) [] rfl⟩

/-- C7 (code_bug): a stored `contexts` blob that does not decode makes
both `record` (on the same id) and `recall` (when the blob matches a
keyword) throw the `JSON.parse` error instead of treating the list as
empty; the spec says the engine never panics on malformed persisted
data. -/
theorem C7_malformed_contexts_raises :
    (BrainBoxDB.record "/a" "file" (some "q") (qq 0 1) badBlobEngine).1 =
      .error "SyntaxError: JSON.parse failed" ∧
    (BrainBoxDB.recallOp "foo" "file" 5 (qq 0 1) badBlobEngine).1 =
      .error "SyntaxError: JSON.parse failed" :=
  ⟨rfl, rfl⟩

/-- C8: starting from an empty database, after any sequence of `record`
calls the synapse table is symmetric: a row `(a, b)` exists iff
`(b, a)` does, and then their weights are equal (both directions are
upserted with the same `Δ` inside the Hebbian loop). -/
theorem C8_synapse_symmetry (sid : String) (t0 : Q)
    (calls : List (String × String × Option String × Q)) :
    SymW (applyRecordCalls calls (openFresh sid t0)).db := by
  unfold applyRecordCalls
  exact foldl_preserve (fun ee => SymW ee.db)
    (fun ee c => (BrainBoxDB.record c.1 c.2.1 c.2.2.1 c.2.2.2 ee).2) calls
    (fun b a _ hb => record_symm a.1 a.2.1 a.2.2.1 a.2.2.2 b hb)
    (openFresh sid t0) (openFresh_symm sid t0)

/-- C9: `close()` is idempotent and reopening is lazy: closing twice
equals closing once (and `close` never throws — it is a total
function), and a `record` after `close()` behaves exactly as the same
`record` without the intervening `close` (`ensureOpen` reopens). -/
theorem C9_close_idempotent_lazy_reopen (e : BrainBoxDB) (p t : String)
    (q : Option String) (now : Q) :
    BrainBoxDB.close (BrainBoxDB.close e) = BrainBoxDB.close e ∧
    BrainBoxDB.record p t q now (BrainBoxDB.close e) =
      BrainBoxDB.record p t q now e := by
  constructor
  · rfl
  · unfold BrainBoxDB.record
    rw [ensureOpen_close]

/-- C10: `recall` is read-only: for every query, type, limit and time
it leaves the persisted store (all four tables), the co-access window,
the `accessOrder` counter and the session id unchanged — `recall` runs
only `SELECT` statements. -/
theorem C10_recall_readonly (query type_ : String) (limit : Int) (now : Q)
    (e : BrainBoxDB) :
    (BrainBoxDB.recallOp query type_ limit now e).2.db = e.db ∧
    (BrainBoxDB.recallOp query type_ limit now e).2.recentAccesses = e.recentAccesses ∧
    (BrainBoxDB.recallOp query type_ limit now e).2.accessOrder = e.accessOrder ∧
    (BrainBoxDB.recallOp query type_ limit now e).2.sessionId = e.sessionId :=
  ⟨ensureOpen_db e, ensureOpen_recentAccesses e, ensureOpen_accessOrder e,
   ensureOpen_sessionId e⟩

/-- C6 (counterexample): the claim quantifies over every outgoing
synapse of a Phase-1 seed, but `recall` considers only the first 10
synapses by descending weight (`slice(0, 10)`).  In `spreadEngine` the
seed is direct-matched with confidence `0.6` and the synapse to
`/t11` has weight `0.8 ≥ 0.3`, an unactivated matching target and
spread confidence `0.6·0.8·1 = 0.48 ≥ 0.4`, yet `/t11` is not emitted
because ten heavier synapses fill the slice. -/
theorem C6_counterexample :
    ((synGet spreadEngine.db "file:/s" "file:/t11").map
      (fun s => s.weight.beq (qq 80 100))) = some true ∧
    (qq 80 100).val = 0.8 ∧ (0.3 : ℚ) ≤ 0.8 ∧
    ((0.4 : ℚ) ≤ (0.6 : ℚ) * 0.8 * (1 + 0)) ∧
    ((BrainBoxDB.recallOp "foo" "file" 20 (qq 0 1) spreadEngine).1.map (fun rs =>
      (rs.any (fun r => r.neuron.id == "file:/t11"),
       rs.any (fun r => r.neuron.id == "file:/s" && r.confidence.beq (qq 6 10)
         && r.activation_path == "direct"),
       rs.length)))
      = .ok (false, true, 11) := by
  refine ⟨by rfl, ?_, by norm_num, by norm_num, by rfl⟩
  rw [Q.val_qq 80 100 (by norm_num)]
  norm_num

/-- C6 (amended): in Phase 2 of `recall`, for every Phase-1 seed and
every synapse `s` among the 10 the loop considers (the outgoing
synapses sorted by descending weight, sliced to the first 10) with
`weight ≥ 0.3`, whose target is not yet activated, matches the
requested type and has a decodable contexts blob, the target is emitted
with `activation_path = "spread"` and confidence
`min(seed.confidence · s.weight · (1 + target.myelination), 0.99)`
exactly when `seed.confidence · s.weight · (1 + target.myelination) ≥
0.4`; synapses ranked past the first 10 are never considered, even when
they meet every gate. -/
theorem C6_spread_gate (db : DB) (type_ : String) (seedConf : Q)
    (acc : List String × List RecallResult) (syn : Synapse) (target : Neuron)
    (ctx : List String)
    (hw : (0.3 : ℚ) ≤ syn.weight.val)
    (hact : acc.1.contains syn.target_id = false)
    (htgt : getNeuron db syn.target_id = some target)
    (htype : type_ = "" ∨ target.type = type_)
    (hparse : target.contexts = Blob.enc ctx) :
    BrainBoxDB.spreadStep db type_ seedConf acc syn =
      if (0.4 : ℚ) ≤ seedConf.val * syn.weight.val * (1 + target.myelination.val)
      then .ok (acc.1 ++ [syn.target_id],
        acc.2 ++ [⟨{ target with contexts := Blob.enc ctx },
          ((seedConf.mul syn.weight).mul ((qq 1 1).add target.myelination)).qmin (qq 99 100),
          "spread"⟩])
      else .ok acc := by
  have hblt : syn.weight.blt (qq 3 10) = false := by
    rw [Q.blt_false_iff, Q.val_qq 3 10 (by norm_num)]
    calc ((3 : ℚ) : ℚ) / ((10 : Nat) : ℚ) = 0.3 := by norm_num
    _ ≤ syn.weight.val := hw
  have htypeb : (type_ != "" && target.type != type_) = false := by
    cases htype with
    | inl h0 =>
      subst h0
      rfl
    | inr h0 =>
      rw [h0]
      simp
  have hval : ((seedConf.mul syn.weight).mul ((qq 1 1).add target.myelination)).val =
      seedConf.val * syn.weight.val * (1 + target.myelination.val) := by
    rw [Q.val_mul, Q.val_mul, Q.val_add, val_oneQ]
  unfold BrainBoxDB.spreadStep
  rw [hblt, hact]
  simp only [Bool.or_self, Bool.false_eq_true, if_false]
  rw [htgt]
  simp only [htypeb, Bool.false_eq_true, if_false]
  by_cases hg : (0.4 : ℚ) ≤ seedConf.val * syn.weight.val * (1 + target.myelination.val)
  · rw [if_pos hg]
    have hblt2 : ((seedConf.mul syn.weight).mul ((qq 1 1).add target.myelination)).blt
        CONFIDENCE_GATE = false := by
      rw [Q.blt_false_iff, CONFIDENCE_GATE_val, hval]
      exact hg
    rw [hblt2]
    simp only [Bool.false_eq_true, if_false]
    have hpn : BrainBoxDB.parseNeuron target =
        Except.ok { target with contexts := Blob.enc ctx } := by
      unfold BrainBoxDB.parseNeuron
      rw [hparse]
      rfl
    rw [hpn]
    rfl
  · rw [if_neg hg]
    have hblt2 : ((seedConf.mul syn.weight).mul ((qq 1 1).add target.myelination)).blt
        CONFIDENCE_GATE = true := by
      rw [Q.blt_iff, CONFIDENCE_GATE_val, hval]
      exact not_le.mp hg
    rw [hblt2]
    rfl

/-- C6 (witness): the spec's gate example — seed confidence `0.6`
across a weight-`0.4` synapse to a target with myelination `0` gives
spread confidence `0.24 < 0.4`, so the target is not emitted. -/
theorem C6_witness :
    BrainBoxDB.spreadStep gateDb "file" (qq 6 10) ([], []) gateSyn = .ok ([], []) := by
  have h := C6_spread_gate gateDb "file" (qq 6 10) ([], []) gateSyn gateTarget []
    (by show (0.3 : ℚ) ≤ (qq 4 10).val
        rw [Q.val_qq 4 10 (by norm_num)]
        norm_num)
    rfl rfl (Or.inr rfl) rfl
  rw [h]
  rw [if_neg ?hneg]
  case hneg =>
    show ¬ ((0.4 : ℚ) ≤ (qq 6 10).val * (qq 4 10).val * (1 + (qq 0 1).val))
    rw [Q.val_qq 6 10 (by norm_num), Q.val_qq 4 10 (by norm_num),
      Q.val_qq 0 1 (by norm_num)]
    norm_num

end NeuroVault
